import Mathlib

/-!
Verification of the ebook-generator pipeline: a shallow embedding of the
deterministic parts of `html_builder.py`, `generator.py`, `main.py`,
`api/job_store.py` and `api/services/generation.py`, together with theorems
about the claims of the specification.

Python dict-shaped data is embedded as the inductive type `PyVal`; Python
exceptions are embedded as `Except PyErr`.
-/

namespace EbookGen

/-- Embedding of the Python values that flow through the pipeline
(JSON-decoded data and block dicts).  Floats are represented exactly as
decimal mantissa/exponent pairs (`m * 10 ^ e`), which is faithful for every
float literal the JSON parser can produce; `nan`/`inf` cover Python's
`NaN`/`Infinity`/`-Infinity` extensions accepted by `json.loads`. -/
inductive PyVal where
  | none : PyVal
  | bool (b : Bool) : PyVal
  | int (n : Int) : PyVal
  | float (m : Int) (e : Int) : PyVal
  | nan : PyVal
  | inf (neg : Bool) : PyVal
  | str (s : String) : PyVal
  | list (xs : List PyVal) : PyVal
  | dict (kvs : List (String × PyVal)) : PyVal

/-- Embedding of the Python exceptions raised by the code under study. -/
inductive PyErr where
  | keyError (k : String) : PyErr
  | typeError (msg : String) : PyErr
  | attributeError (msg : String) : PyErr
  | valueError (msg : String) : PyErr
deriving DecidableEq

/-- Character used for Python's single-quote string delimiter. -/
def squote : Char := Char.ofNat 39

/-- Opening curly brace character. -/
def lbrace : Char := Char.ofNat 123

/-- Closing curly brace character. -/
def rbrace : Char := Char.ofNat 125

/-- Decimal digits of a natural number, most significant first (fuelled
helper; `fuel ≥ n` guarantees completion). -/
def natDigitsAux : Nat → Nat → List Char → List Char
  | 0, _, acc => acc
  | _, 0, acc => acc
  | fuel + 1, n, acc =>
      natDigitsAux fuel (n / 10) (Char.ofNat (48 + n % 10) :: acc)

/-- Decimal rendering of a natural number (model of Python's `str(int)` for
non-negative values). -/
def pyNatStr (n : Nat) : List Char :=
  if n = 0 then ['0'] else natDigitsAux n n []

/-- Model of Python's `str` on `int` values. -/
def pyIntStr (i : Int) : String :=
  match i with
  | Int.ofNat n => String.mk (pyNatStr n)
  | Int.negSucc n => String.mk ('-' :: pyNatStr (n + 1))

/-- Model of Python's `str` on our decimal floats: renders `m * 10 ^ e` in
plain decimal notation.  (Python's shortest-round-trip float `repr` agrees
with this on the short decimal literals that occur in this pipeline.) -/
def pyFloatStr (m : Int) (e : Int) : String :=
  let sign : List Char := if m < 0 then ['-'] else []
  let digits := pyNatStr m.natAbs
  match e with
  | Int.ofNat k =>
      String.mk (sign ++ digits ++ List.replicate k '0' ++ ['.', '0'])
  | Int.negSucc k' =>
      let k := k' + 1
      if digits.length ≤ k then
        String.mk (sign ++ ['0', '.'] ++ List.replicate (k - digits.length) '0' ++ digits)
      else
        String.mk (sign ++ digits.take (digits.length - k) ++ ['.'] ++
          digits.drop (digits.length - k))

/-- Model of Python's truthiness (`bool(x)`), as used by `if text`,
`if blocks_en`, `if filename`, `if ordered`, etc. -/
def pyTruthy : PyVal → Bool
  | .none => false
  | .bool b => b
  | .int n => n ≠ 0
  | .float m _ => m ≠ 0
  | .nan => true
  | .inf _ => true
  | .str s => s ≠ ""
  | .list xs => !xs.isEmpty
  | .dict kvs => !kvs.isEmpty

/-- Escapes for Python `repr` of a string character (backslash, the quote
character in use, and the common control characters; other characters are
kept verbatim, which matches Python for the printable data in this
pipeline). -/
def pyReprChar (quote : Char) (c : Char) : List Char :=
  if c = '\\' then ['\\', '\\']
  else if c = quote then ['\\', quote]
  else if c = '\n' then ['\\', 'n']
  else if c = '\r' then ['\\', 'r']
  else if c = '\t' then ['\\', 't']
  else [c]

/-- Model of Python `repr` on strings: single quotes unless the string
contains a single quote and no double quote. -/
def pyStrRepr (s : String) : String :=
  let quote :=
    if s.data.contains squote ∧ ¬ s.data.contains '"' then '"' else squote
  String.mk (quote :: (s.data.flatMap (pyReprChar quote)) ++ [quote])

mutual

/-- Model of Python `repr` on embedded values. -/
def pyRepr : PyVal → String
  | .none => "None"
  | .bool b => if b then "True" else "False"
  | .int n => pyIntStr n
  | .float m e => pyFloatStr m e
  | .nan => "nan"
  | .inf neg => if neg then "-inf" else "inf"
  | .str s => pyStrRepr s
  | .list xs => "[" ++ pyReprList xs ++ "]"
  | .dict kvs => String.mk [lbrace] ++ pyReprDict kvs ++ String.mk [rbrace]

/-- Comma-separated `repr`s of a list's elements. -/
def pyReprList : List PyVal → String
  | [] => ""
  | [x] => pyRepr x
  | x :: y :: rest => pyRepr x ++ ", " ++ pyReprList (y :: rest)

/-- Comma-separated `key: value` entries of a dict's `repr`. -/
def pyReprDict : List (String × PyVal) → String
  | [] => ""
  | [(k, v)] => pyStrRepr k ++ ": " ++ pyRepr v
  | (k, v) :: e :: rest =>
      pyStrRepr k ++ ": " ++ pyRepr v ++ ", " ++ pyReprDict (e :: rest)

end

/-- Model of Python `str()` on embedded values: identity on strings,
`repr`-like on containers, standard renderings otherwise. -/
def pyStr : PyVal → String
  | .str s => s
  | v => pyRepr v

/-- First-match association-list lookup (Python dicts built by this
pipeline have unique keys, either by construction or by last-wins
insertion). -/
def lookupKV : List (String × PyVal) → String → Option PyVal
  | [], _ => Option.none
  | (k, v) :: rest, key => if k = key then some v else lookupKV rest key

/-- Insert-or-overwrite for dict construction (`d[k] = v` semantics; used by
the JSON parser so that duplicate object keys are last-wins, as in
Python). -/
def dictSet : List (String × PyVal) → String → PyVal → List (String × PyVal)
  | [], key, v => [(key, v)]
  | (k, w) :: rest, key, v =>
      if k = key then (k, v) :: rest else (k, w) :: dictSet rest key v

/-- Model of `block.get(key, default)`: raises `AttributeError` when the
receiver is not a dict (Python: `'…' object has no attribute 'get'`). -/
def pyGet (b : PyVal) (key : String) (dflt : PyVal) : Except PyErr PyVal :=
  match b with
  | .dict kvs => .ok ((lookupKV kvs key).getD dflt)
  | _ => .error (.attributeError "object has no attribute get")

/-- Model of `b[key]` subscription: `KeyError` on a dict without the key,
`TypeError` on non-dict receivers. -/
def pySubscr (b : PyVal) (key : String) : Except PyErr PyVal :=
  match b with
  | .dict kvs =>
      match lookupKV kvs key with
      | some v => .ok v
      | Option.none => .error (.keyError key)
  | _ => .error (.typeError "indices must be integers")

/-- Model of Python iteration (`for x in v`): lists yield their elements,
strings their characters, dicts their keys; other values raise
`TypeError`. -/
def pyIter : PyVal → Except PyErr (List PyVal)
  | .list xs => .ok xs
  | .str s => .ok (s.data.map (fun c => .str (String.mk [c])))
  | .dict kvs => .ok (kvs.map (fun kv => .str kv.1))
  | _ => .error (.typeError "object is not iterable")

/-- Finite numeric value as a decimal fraction `m / 10 ^ d`. -/
def numAsFrac : PyVal → Option (Int × Nat)
  | .int n => some (n, 0)
  | .bool b => some (if b then 1 else 0, 0)
  | .float m e =>
      match e with
      | Int.ofNat k => some (m * (10 : Int) ^ k, 0)
      | Int.negSucc k => some (m, k + 1)
  | _ => Option.none

mutual

/-- Python `==` on embedded values: same-type scalar comparisons, exact
numeric cross-type equality for bool/int/float (Python compares int and
float exactly, so `4.0 == 4` is true), `inf == inf` by sign, `nan`
unequal to everything including itself; lists and dicts are compared
entrywise in order, which is exact for the comparisons this pipeline
performs; other cross-type comparisons are unequal. -/
def pyEqB : PyVal → PyVal → Bool
  | .none, .none => true
  | .bool a, .bool b => a == b
  | .int a, .int b => a == b
  | .str a, .str b => a == b
  | .list a, .list b => pyEqListB a b
  | .dict a, .dict b => pyEqDictB a b
  | .nan, _ => false
  | _, .nan => false
  | .inf a, .inf b => a == b
  | a, b =>
      match numAsFrac a, numAsFrac b with
      | some (ma, da), some (mb, db) => ma * (10 : Int) ^ db == mb * (10 : Int) ^ da
      | _, _ => false

/-- Elementwise Python `==` on lists. -/
def pyEqListB : List PyVal → List PyVal → Bool
  | [], [] => true
  | a :: as', b :: bs' => pyEqB a b && pyEqListB as' bs'
  | _, _ => false

/-- Entrywise equality of dict entry lists. -/
def pyEqDictB : List (String × PyVal) → List (String × PyVal) → Bool
  | [], [] => true
  | (k, v) :: as', (k', v') :: bs' => k == k' && pyEqB v v' && pyEqDictB as' bs'
  | _, _ => false

end

end EbookGen

namespace EbookGen

/-- Model of `html.escape` on one character (`&`, `<`, `>`, `"`, `'`;
`quote=True` default).  Python applies sequential `str.replace` passes
starting with `&`, whose net effect is this character-wise map. -/
def escapeChar (c : Char) : String :=
  if c = '&' then "&amp;"
  else if c = '<' then "&lt;"
  else if c = '>' then "&gt;"
  else if c = '"' then "&quot;"
  else if c = squote then "&#x27;"
  else String.mk [c]

/-- Model of `html.escape` on a string. -/
def htmlEscape (s : String) : String :=
  String.mk (s.data.flatMap (fun c => (escapeChar c).data))

/-- `html_builder.escape`: `html.escape(str(text)) if text else ""`. -/
def escape (text : PyVal) : String :=
  if pyTruthy text then htmlEscape (pyStr text) else ""

/-- Values on which Python comparison operators `<`/`>` succeed against a
number (int, bool, float, and the float specials). -/
def isNumV : PyVal → Bool
  | .int _ => true
  | .bool _ => true
  | .float _ _ => true
  | .nan => true
  | .inf _ => true
  | _ => false

/-- Python `<` on two numeric values. -/
def ltNumV (a b : PyVal) : Bool :=
  match a, b with
  | .nan, _ => false
  | _, .nan => false
  | .inf na, .inf nb => na && !nb
  | .inf na, _ => na
  | _, .inf nb => !nb
  | _, _ =>
      match numAsFrac a, numAsFrac b with
      | some (ma, da), some (mb, db) => ma * (10 : Int) ^ db < mb * (10 : Int) ^ da
      | _, _ => false

/-- Python `a < b`, raising `TypeError` on non-numeric operands (as in
`min`/`max` over a heading level). -/
def pyLtB (a b : PyVal) : Except PyErr Bool :=
  if isNumV a && isNumV b then .ok (ltNumV a b)
  else .error (.typeError "not supported between instances")

/-- `max(2, min(4, level))` from `build_heading` (Python `min(a, b)`
returns `b` when `b < a`, `max(a, b)` returns `b` when `a < b`). -/
def clampLevel (level : PyVal) : Except PyErr PyVal := do
  let ltMin ← pyLtB level (.int 4)
  let m := if ltMin then level else .int 4
  let ltMax ← pyLtB (.int 2) m
  pure (if ltMax then m else .int 2)

/-- Executable contiguous-substring test on lists. -/
def isInfixB (pat : List Char) : List Char → Bool
  | [] => pat.isEmpty
  | c :: rest => pat.isPrefixOf (c :: rest) || isInfixB pat rest

theorem isInfixB_iff (pat l : List Char) : isInfixB pat l = true ↔ pat <:+: l := by
  induction l with
  | nil =>
      simp only [isInfixB, List.isEmpty_iff, List.infix_nil]
  | cons c rest ih =>
      simp only [isInfixB, Bool.or_eq_true, List.isPrefixOf_iff_prefix, ih,
        List.infix_cons_iff]

/-- Python substring test `pat in s`. -/
def hasSub (s pat : String) : Bool :=
  isInfixB pat.data s.data

/-- Characters strictly before the first occurrence of `sep` (the whole
list when `sep` does not occur): Python `s.split(sep)[0]`. -/
def takeBeforeFirst (sep : List Char) : List Char → List Char
  | [] => []
  | c :: rest =>
      if sep.isPrefixOf (c :: rest) then []
      else c :: takeBeforeFirst sep rest

/-- Characters after the first occurrence of `sep` (everything dropped up
to and including that occurrence). -/
def dropThroughFirst (sep : List Char) : List Char → List Char
  | [] => []
  | c :: rest =>
      if sep.isPrefixOf (c :: rest) then (c :: rest).drop sep.length
      else dropThroughFirst sep rest

/-- Each round of `takeAfterLast` strictly shortens its input, so fuel
`l.length` is always sufficient. -/
theorem dropThroughFirst_length_lt (sep : List Char) (l : List Char)
    (hsep : sep ≠ []) (hinf : isInfixB sep l = true) :
    (dropThroughFirst sep l).length < l.length := by
  induction l with
  | nil =>
      rw [isInfixB_iff] at hinf
      exact absurd (List.eq_nil_of_infix_nil hinf) hsep
  | cons c rest ih =>
      simp only [dropThroughFirst]
      by_cases hpre : sep.isPrefixOf (c :: rest)
      · simp only [hpre, if_true, List.length_drop]
        have : 1 ≤ sep.length := by
          cases sep with
          | nil => exact absurd rfl hsep
          | cons _ _ => simp
        simp only [List.length_cons]
        omega
      · simp only [hpre, Bool.false_eq_true, if_false]
        have hrest : isInfixB sep rest = true := by
          rw [isInfixB_iff] at hinf ⊢
          rcases (List.infix_cons_iff.mp hinf) with h | h
          · exact absurd (List.isPrefixOf_iff_prefix.mpr h) hpre
          · exact h
        have := ih hrest
        simp only [List.length_cons]
        omega

/-- Fuelled jump past successive occurrences of `sep`
(by `dropThroughFirst_length_lt`, fuel `l.length` never runs out). -/
def takeAfterLastFuel (sep : List Char) : Nat → List Char → List Char
  | 0, l => l
  | fuel + 1, l =>
      if sep ≠ [] ∧ isInfixB sep l = true then
        takeAfterLastFuel sep fuel (dropThroughFirst sep l)
      else l

/-- Characters after the last occurrence of `sep` (the whole list when
`sep` does not occur): Python `s.split(sep)[-1]`. -/
def takeAfterLast (sep l : List Char) : List Char :=
  takeAfterLastFuel sep l.length l

/-- Python `s.split(sep)[-1]` on strings. -/
def splitLastSub (s sep : String) : String :=
  String.mk (takeAfterLast sep.data s.data)

/-- Python `s.split(sep)[0]` on strings. -/
def splitHeadSub (s sep : String) : String :=
  String.mk (takeBeforeFirst sep.data s.data)

/-- ASCII whitespace recognized by Python's no-argument `str.split` (the
strings word-counted by this pipeline are ASCII). -/
def isPySpace (c : Char) : Bool :=
  c = ' ' || c = '\t' || c = '\n' || c = '\r' || c = Char.ofNat 11 || c = Char.ofNat 12

/-- Accumulating word splitter over characters (current word reversed in
`acc`). -/
def splitWsAux : List Char → List Char → List String
  | [], acc => if acc.isEmpty then [] else [String.mk acc.reverse]
  | c :: rest, acc =>
      if isPySpace c then
        if acc.isEmpty then splitWsAux rest []
        else String.mk acc.reverse :: splitWsAux rest []
      else splitWsAux rest (c :: acc)

/-- Python `s.split()`: whitespace-delimited words, empties dropped. -/
def pySplitWs (s : String) : List String := splitWsAux s.data []

/-- Model of Python `sep.join(parts)`. -/
def joinSep (sep : String) : List String → String
  | [] => ""
  | [x] => x
  | x :: y :: rest => x ++ sep ++ joinSep sep (y :: rest)

/-- `html_builder.build_paragraph`. -/
def build_paragraph (block : PyVal) : Except PyErr String := do
  let t ← pySubscr block "text"
  pure ("<p>" ++ escape t ++ "</p>")

/-- `html_builder.build_heading`. -/
def build_heading (block : PyVal) : Except PyErr String := do
  let level ← pyGet block "level" (.int 2)
  let level ← clampLevel level
  let t ← pySubscr block "text"
  pure ("<h" ++ pyStr level ++ ">" ++ escape t ++ "</h" ++ pyStr level ++ ">")

/-- `html_builder.build_list`. -/
def build_list (block : PyVal) : Except PyErr String := do
  let ordered ← pyGet block "ordered" (.bool false)
  let tag := if pyTruthy ordered then "ol" else "ul"
  let items ← pyIter (← pyGet block "items" (.list []))
  let itemsHtml := joinSep "\n"
    (items.map (fun it => "        <li>" ++ escape it ++ "</li>"))
  pure ("<" ++ tag ++ " class=\"my-4 pl-6 space-y-2\">\n" ++ itemsHtml ++
    "\n    </" ++ tag ++ ">")

/-- `html_builder.build_table`. -/
def build_table (block : PyVal) : Except PyErr String := do
  let headers ← pyIter (← pyGet block "headers" (.list []))
  let rows ← pyIter (← pyGet block "rows" (.list []))
  let headerCells := joinSep "\n" (headers.map (fun h =>
    "          <th class=\"border border-neutral-700 px-4 py-2 text-left\">" ++
      escape h ++ "</th>"))
  let bodyRows ← rows.mapM (fun row => do
    let cells ← pyIter row
    let cellsHtml := joinSep "\n" (cells.map (fun cell =>
      "          <td class=\"border border-neutral-700 px-4 py-2\">" ++
        escape cell ++ "</td>"))
    pure ("        <tr>\n" ++ cellsHtml ++ "\n        </tr>"))
  pure ("<div class=\"my-6 overflow-x-auto\">\n    <table class=\"w-full border-collapse border border-neutral-700 text-sm\">\n      <thead class=\"bg-neutral-800\">\n        <tr>\n" ++
    headerCells ++
    "\n        </tr>\n      </thead>\n      <tbody>\n" ++
    joinSep "\n" bodyRows ++
    "\n      </tbody>\n    </table>\n  </div>")

/-- Style configuration for `info` callouts. -/
def infoCfg : String × String × String :=
  ("border-blue-500", "bg-blue-500/10", "&#8505;&#65039;")

/-- `styles.get(style, styles["info"])` from `build_callout`: raises
`TypeError` on unhashable keys, falls back to the `info` configuration on
unknown keys. -/
def calloutLookup (style : PyVal) : Except PyErr (String × String × String) :=
  match style with
  | .list _ => .error (.typeError "unhashable type: list")
  | .dict _ => .error (.typeError "unhashable type: dict")
  | .str s =>
      .ok (if s = "warning" then ("border-yellow-500", "bg-yellow-500/10", "&#9888;&#65039;")
        else if s = "tip" then ("border-green-500", "bg-green-500/10", "&#128161;")
        else if s = "note" then ("border-purple-500", "bg-purple-500/10", "&#128221;")
        else infoCfg)
  | _ => .ok infoCfg

/-- `html_builder.build_callout`.  Note the `data-callout-type` attribute
embeds `str(style)` without HTML escaping, exactly as the source's
f-string does. -/
def build_callout (block : PyVal) : Except PyErr String := do
  let style ← pyGet block "style" (.str "info")
  let title ← pyGet block "title" (.str "")
  let content ← pyGet block "content" (.str "")
  let cfg ← calloutLookup style
  pure ("<div data-block=\"callout\" data-callout-type=\"" ++ pyStr style ++
    "\" class=\"my-6 p-4 rounded-lg border-l-4 " ++ cfg.1 ++ " " ++ cfg.2.1 ++
    "\">\n    <div class=\"flex gap-3\">\n      <span class=\"text-xl\">" ++ cfg.2.2 ++
    "</span>\n      <div>\n        <strong class=\"block mb-1\">" ++ escape title ++
    "</strong>\n        <p class=\"text-gray-300 m-0\">" ++ escape content ++
    "</p>\n      </div>\n    </div>\n  </div>")

/-- `html_builder.build_accordion`. -/
def build_accordion (block : PyVal) : Except PyErr String := do
  let items ← pyIter (← pyGet block "items" (.list []))
  let parts ← items.enum.mapM (fun p => do
    let title ← pyGet p.2 "title" (.str "")
    let content ← pyGet p.2 "content" (.str "")
    pure ("    <div data-accordion-item=\"" ++ toString p.1 ++
      "\" class=\"border border-neutral-700 rounded-lg mb-2 overflow-hidden\">\n      <div data-accordion-trigger class=\"px-4 py-3 bg-neutral-800 font-medium cursor-pointer hover:bg-neutral-700 flex justify-between items-center\">\n        <span>" ++
      escape title ++
      "</span>\n        <span>&#9660;</span>\n      </div>\n      <div data-accordion-content class=\"px-4 py-3 border-t border-neutral-700\">\n        " ++
      escape content ++ "\n      </div>\n    </div>"))
  pure ("<div data-block=\"accordion\" class=\"my-6\">\n" ++
    joinSep "\n" parts ++ "\n  </div>")

/-- `html_builder.build_tabs`. -/
def build_tabs (block : PyVal) : Except PyErr String := do
  let tabs ← pyIter (← pyGet block "tabs" (.list []))
  let buttons ← tabs.enum.mapM (fun p => do
    let label ← pyGet p.2 "label" (.str ("Tab " ++ toString (p.1 + 1)))
    let activeClass := if p.1 = 0 then "border-orange-500 text-orange-500"
      else "border-transparent text-gray-400"
    pure ("      <button data-tab-button=\"" ++ toString p.1 ++
      "\" class=\"px-4 py-2 border-b-2 " ++ activeClass ++ "\">" ++
      escape label ++ "</button>"))
  let contents ← tabs.enum.mapM (fun p => do
    let content ← pyGet p.2 "content" (.str "")
    let hidden := if p.1 = 0 then "" else "hidden "
    pure ("      <div data-tab-content=\"" ++ toString p.1 ++ "\" class=\"" ++
      hidden ++ "p-4\">" ++ escape content ++ "</div>"))
  pure ("<div data-block=\"tabs\" class=\"my-6 border border-neutral-700 rounded-lg overflow-hidden\">\n    <div class=\"flex border-b border-neutral-700 bg-neutral-800\">\n" ++
    joinSep "\n" buttons ++
    "\n    </div>\n    <div>\n" ++
    joinSep "\n" contents ++
    "\n    </div>\n  </div>")

/-- `html_builder.build_code`.  The `data-language` attribute embeds the
raw `language` value; `data-filename` embeds the escaped filename. -/
def build_code (block : PyVal) : Except PyErr String := do
  let language ← pyGet block "language" (.str "")
  let filename ← pyGet block "filename" (.str "")
  let code := escape (← pyGet block "code" (.str ""))
  let header := if pyTruthy filename then
      "    <div class=\"px-4 py-2 bg-neutral-800 border-b border-neutral-700 text-xs text-gray-400 font-mono\">" ++
        escape filename ++ "</div>\n"
    else ""
  pure ("<div data-block=\"code\" data-language=\"" ++ pyStr language ++
    "\" data-filename=\"" ++ escape filename ++
    "\" class=\"my-6 rounded-lg overflow-hidden bg-neutral-900 border border-neutral-700\">\n" ++
    header ++
    "    <pre class=\"p-4 overflow-x-auto m-0\"><code class=\"text-sm font-mono text-gray-200\">" ++
    code ++ "</code></pre>\n  </div>")

/-- `html_builder.build_quote` (the em-dash mojibake `â€”` is literal in
the source file). -/
def build_quote (block : PyVal) : Except PyErr String := do
  let text := escape (← pyGet block "text" (.str ""))
  let author := escape (← pyGet block "author" (.str ""))
  let authorHtml := if author ≠ "" then
      "\n    <footer class=\"mt-3 text-sm text-gray-400\">â€” " ++ author ++ "</footer>"
    else ""
  pure ("<blockquote data-block=\"quote\" data-author=\"" ++ author ++
    "\" class=\"my-8 pl-6 border-l-4 border-orange-500 bg-neutral-800/50 py-4 pr-4 rounded-r-lg\">\n    <p class=\"text-lg italic text-gray-200 m-0\">\"" ++
    text ++ "\"</p>" ++ authorHtml ++ "\n  </blockquote>")

/-- Python membership `s in v`, as evaluated on the `url` value of
`build_video`: substring test on strings, element test (via `==`) on
lists, key test on dicts, and `TypeError` on non-iterable values. -/
def pyContains (v : PyVal) (s : String) : Except PyErr Bool :=
  match v with
  | .str u => .ok (hasSub u s)
  | .list xs => .ok (xs.any (fun x => pyEqB x (.str s)))
  | .dict kvs => .ok (kvs.any (fun kv => kv.1 == s))
  | _ => .error (.typeError "argument of type is not iterable")

/-- Python attribute access `v.split`: only strings have it, every other
value raises `AttributeError`. -/
def asSplitStr (v : PyVal) : Except PyErr String :=
  match v with
  | .str u => .ok u
  | _ => .error (.attributeError "object has no attribute split")

/-- `html_builder.build_video`: URL classification and embed target.
`"…" in url` is Python membership (a non-iterable `url` raises
`TypeError`), `url.split(…)` requires a string (`AttributeError`
otherwise), and a `url` that reaches an f-string placeholder is embedded
via `str(url)`. -/
def build_video (block : PyVal) : Except PyErr String := do
  let url ← pyGet block "url" (.str "")
  let caption := escape (← pyGet block "caption" (.str ""))
  let isYt ← pyContains url "youtube.com"
  let isBe ← pyContains url "youtu.be"
  let cls ←
    if isYt || isBe then do
      let isBeSlash ← pyContains url "youtu.be/"
      if isBeSlash then do
        let u ← asSplitStr url
        pure ("youtube",
          "https://www.youtube.com/embed/" ++ splitHeadSub (splitLastSub u "youtu.be/") "?")
      else do
        let isV ← pyContains url "v="
        if isV then do
          let u ← asSplitStr url
          pure ("youtube",
            "https://www.youtube.com/embed/" ++ splitHeadSub (splitLastSub u "v=") "&")
        else
          pure ("youtube", "https://www.youtube.com/embed/" ++ pyStr url)
    else do
      let isVim ← pyContains url "vimeo.com"
      if isVim then do
        let u ← asSplitStr url
        pure ("vimeo",
          "https://player.vimeo.com/video/" ++ splitHeadSub (splitLastSub u "/") "?")
      else
        pure (("youtube" : String), pyStr url)
  let captionHtml := if caption ≠ "" then
      "\n    <p class=\"mt-2 text-center text-sm text-gray-400\">" ++ caption ++ "</p>"
    else ""
  pure ("<div data-block=\"video\" data-video-type=\"" ++ cls.1 ++
    "\" class=\"my-8\">\n    <div class=\"relative aspect-video rounded-lg overflow-hidden bg-neutral-800\">\n      <iframe src=\"" ++
    cls.2 ++
    "\" title=\"Video\" allow=\"accelerometer; autoplay; clipboard-write; encrypted-media; gyroscope; picture-in-picture\" allowfullscreen class=\"absolute inset-0 w-full h-full\"></iframe>\n    </div>" ++
    captionHtml ++ "\n  </div>")

/-- `html_builder.BLOCK_BUILDERS` (string keys to builder functions). -/
def BLOCK_BUILDERS (t : String) : Option (PyVal → Except PyErr String) :=
  if t = "paragraph" then some build_paragraph
  else if t = "heading" then some build_heading
  else if t = "list" then some build_list
  else if t = "table" then some build_table
  else if t = "callout" then some build_callout
  else if t = "accordion" then some build_accordion
  else if t = "tabs" then some build_tabs
  else if t = "code" then some build_code
  else if t = "quote" then some build_quote
  else if t = "video" then some build_video
  else Option.none

/-- `BLOCK_BUILDERS.get(block_type)`: a dict lookup, so an unhashable key
(list or dict value in the block's `type` field) raises `TypeError` —
outside the `try` in `build_html`. -/
def builderFor (t : PyVal) : Except PyErr (Option (PyVal → Except PyErr String)) :=
  match t with
  | .list _ => .error (.typeError "unhashable type: list")
  | .dict _ => .error (.typeError "unhashable type: dict")
  | .str s => .ok (BLOCK_BUILDERS s)
  | _ => .ok Option.none

/-- The fallback text `block.get("text", block.get("content", str(block)))`
(such blocks are dicts by the time the fallback runs). -/
def fallbackText (b : PyVal) : PyVal :=
  match b with
  | .dict kvs => (lookupKV kvs "text").getD ((lookupKV kvs "content").getD (.str (pyStr b)))
  | v => .str (pyStr v)

/-- The fallback paragraph rendered for unknown-type or failing blocks. -/
def fallbackPara (b : PyVal) : String :=
  "<p>" ++ escape (fallbackText b) ++ "</p>"

/-- The `try`/`except` around one builder call: any exception from the
builder is caught and replaced by the fallback paragraph. -/
def apply_builder (f : PyVal → Except PyErr String) (b : PyVal) : String :=
  match f b with
  | .ok s => s
  | .error _ => fallbackPara b

/-- One iteration of the `build_html` loop: dispatch to the builder, catch
any exception into the fallback paragraph; unknown types use the same
fallback.  `block.get("type", "paragraph")` and the builder-table lookup
run outside the `try` and so can propagate errors. -/
def render_block (b : PyVal) : Except PyErr String := do
  let t ← pyGet b "type" (.str "paragraph")
  let ob ← builderFor t
  pure (match ob with
    | some f => apply_builder f b
    | Option.none => fallbackPara b)

/-- The `build_html` loop over the block sequence: the first propagated
exception aborts the whole render. -/
def render_blocks : List PyVal → Except PyErr (List String)
  | [] => .ok []
  | b :: rest => do
      let s ← render_block b
      let parts ← render_blocks rest
      pure (s :: parts)

/-- `html_builder.build_html`: render every block, joining with blank
lines. -/
def build_html (blocks : PyVal) : Except PyErr String := do
  let bs ← pyIter blocks
  let parts ← render_blocks bs
  pure (joinSep "\n\n" parts)

end EbookGen

namespace EbookGen

/-- JSON inter-token whitespace accepted by `json.loads`. -/
def isJsonWs (c : Char) : Bool :=
  c = ' ' || c = '\t' || c = '\n' || c = '\r'

/-- Skip JSON whitespace. -/
def skipWs (l : List Char) : List Char := l.dropWhile isJsonWs

/-- Value of one hexadecimal digit. -/
def hexVal (c : Char) : Option Nat :=
  if 48 ≤ c.toNat ∧ c.toNat ≤ 57 then some (c.toNat - 48)
  else if 97 ≤ c.toNat ∧ c.toNat ≤ 102 then some (c.toNat - 87)
  else if 65 ≤ c.toNat ∧ c.toNat ≤ 70 then some (c.toNat - 55)
  else Option.none

/-- Four hexadecimal digits of a `\uXXXX` escape. -/
def parseHex4 : List Char → Option (Nat × List Char)
  | a :: b :: c :: d :: rest => do
      let va ← hexVal a
      let vb ← hexVal b
      let vc ← hexVal c
      let vd ← hexVal d
      pure (va * 4096 + vb * 256 + vc * 16 + vd, rest)
  | _ => Option.none

/-- Body of a JSON string after the opening quote: returns the decoded
characters and the remainder after the closing quote.  Escapes follow
`json.loads` (strict mode: raw control characters are rejected; surrogate
pairs written as two `\u` escapes are combined; a lone surrogate, which
Lean's `Char` cannot carry, degrades to `Char.ofNat`'s default). -/
def parseStringBody : Nat → List Char → Option (List Char × List Char)
  | 0, _ => Option.none
  | fuel + 1, l =>
    match l with
    | [] => Option.none
    | c :: rest =>
      if c = '"' then some ([], rest)
      else if c = '\\' then
        match rest with
        | [] => Option.none
        | e :: rest2 =>
          if e = 'u' then
            match parseHex4 rest2 with
            | some (n, rest3) =>
                if 0xD800 ≤ n ∧ n ≤ 0xDBFF then
                  match rest3 with
                  | b1 :: b2 :: rest4 =>
                      if b1 = '\\' ∧ b2 = 'u' then
                        match parseHex4 rest4 with
                        | some (n2, rest5) =>
                            if 0xDC00 ≤ n2 ∧ n2 ≤ 0xDFFF then do
                              let p ← parseStringBody fuel rest5
                              pure (Char.ofNat (0x10000 + (n - 0xD800) * 0x400 + (n2 - 0xDC00)) :: p.1, p.2)
                            else do
                              let p ← parseStringBody fuel rest3
                              pure (Char.ofNat n :: p.1, p.2)
                        | Option.none => Option.none
                      else do
                        let p ← parseStringBody fuel rest3
                        pure (Char.ofNat n :: p.1, p.2)
                  | _ => do
                      let p ← parseStringBody fuel rest3
                      pure (Char.ofNat n :: p.1, p.2)
                else do
                  let p ← parseStringBody fuel rest3
                  pure (Char.ofNat n :: p.1, p.2)
            | Option.none => Option.none
          else
            let dec : Option Char :=
              if e = '"' then some '"'
              else if e = '\\' then some '\\'
              else if e = '/' then some '/'
              else if e = 'b' then some (Char.ofNat 8)
              else if e = 'f' then some (Char.ofNat 12)
              else if e = 'n' then some '\n'
              else if e = 'r' then some '\r'
              else if e = 't' then some '\t'
              else Option.none
            match dec with
            | some d => do
                let p ← parseStringBody fuel rest2
                pure (d :: p.1, p.2)
            | Option.none => Option.none
      else if c.toNat < 32 then Option.none
      else do
        let p ← parseStringBody fuel rest
        pure (c :: p.1, p.2)

/-- Digits to a natural number, most significant first. -/
def digitsToNat (ds : List Char) : Nat :=
  ds.foldl (fun a c => a * 10 + (c.toNat - 48)) 0

/-- Strip trailing zeros of a decimal mantissa (Python's float value does
not depend on how many trailing zeros the literal carried). -/
def canonFloat : Nat → Int → Int → Int × Int
  | 0, m, e => (m, e)
  | fuel + 1, m, e =>
      if m ≠ 0 ∧ m % 10 = 0 then canonFloat fuel (m / 10) (e + 1) else (m, e)

/-- JSON number per the `json.loads` grammar: optional minus, integer part
without superfluous leading zeros, optional fraction, optional exponent.
Yields `PyVal.int` for plain integers and `PyVal.float` otherwise. -/
def parseNumber (l : List Char) : Option (PyVal × List Char) :=
  let signed := match l with
    | c :: r => if c = '-' then (true, r) else (false, l)
    | [] => (false, l)
  let neg := signed.1
  let l1 := signed.2
  let intDs := l1.takeWhile Char.isDigit
  let r1 := l1.dropWhile Char.isDigit
  if intDs = [] then Option.none
  else if intDs.length > 1 ∧ intDs.head? = some '0' then Option.none
  else
    let fracPart : Option (List Char × List Char) :=
      match r1 with
      | c :: r =>
          if c = '.' then
            let ds := r.takeWhile Char.isDigit
            if ds = [] then Option.none else some (ds, r.dropWhile Char.isDigit)
          else some ([], r1)
      | [] => some ([], r1)
    match fracPart with
    | Option.none => Option.none
    | some (fracDs, r2) =>
      let expPart : Option (Option Int × List Char) :=
        match r2 with
        | c :: r =>
            if c = 'e' ∨ c = 'E' then
              let esigned := match r with
                | d :: r' => if d = '-' then (true, r') else if d = '+' then (false, r') else (false, r)
                | [] => (false, r)
              let eds := esigned.2.takeWhile Char.isDigit
              if eds = [] then Option.none
              else
                let ev : Int := digitsToNat eds
                some (some (if esigned.1 then -ev else ev), esigned.2.dropWhile Char.isDigit)
            else some (Option.none, r2)
        | [] => some (Option.none, r2)
      match expPart with
      | Option.none => Option.none
      | some (expv, r3) =>
        if fracDs = [] ∧ expv = Option.none then
          let v : Int := digitsToNat intDs
          some (.int (if neg then -v else v), r3)
        else
          let mant : Int := digitsToNat (intDs ++ fracDs)
          let mant := if neg then -mant else mant
          let e : Int := expv.getD 0 - fracDs.length
          if mant = 0 then some (.float 0 0, r3)
          else
            let c := canonFloat mant.natAbs mant e
            some (.float c.1 c.2, r3)

mutual

/-- Recursive-descent JSON value parser (model of `json.loads`'s grammar,
including Python's `NaN`/`Infinity`/`-Infinity` extensions).  The fuel
decreases on every descent; since each descent consumes at least one input
character, fuel `length + 1` never runs out. -/
def parseVal : Nat → List Char → Option (PyVal × List Char)
  | 0, _ => Option.none
  | fuel + 1, l =>
    let l := skipWs l
    match l with
    | [] => Option.none
    | c :: rest =>
      if c = lbrace then
        match skipWs rest with
        | d :: rest2 =>
            if d = rbrace then some (.dict [], rest2)
            else parseMembers fuel (skipWs rest) []
        | [] => Option.none
      else if c = '[' then
        match skipWs rest with
        | ']' :: rest2 => some (.list [], rest2)
        | _ => parseItems fuel (skipWs rest) []
      else if c = '"' then
        match parseStringBody (rest.length + 1) rest with
        | some p => some (.str (String.mk p.1), p.2)
        | Option.none => Option.none
      else if "true".data.isPrefixOf l then some (.bool true, l.drop 4)
      else if "false".data.isPrefixOf l then some (.bool false, l.drop 5)
      else if "null".data.isPrefixOf l then some (.none, l.drop 4)
      else if "NaN".data.isPrefixOf l then some (.nan, l.drop 3)
      else if "Infinity".data.isPrefixOf l then some (.inf false, l.drop 8)
      else if "-Infinity".data.isPrefixOf l then some (.inf true, l.drop 9)
      else parseNumber l

/-- Object members after the opening brace (duplicate keys are last-wins,
as in Python dicts). -/
def parseMembers : Nat → List Char → List (String × PyVal) → Option (PyVal × List Char)
  | 0, _, _ => Option.none
  | fuel + 1, l, acc =>
    match skipWs l with
    | q :: rest =>
        if q = '"' then
          match parseStringBody (rest.length + 1) rest with
          | some kp =>
              match skipWs kp.2 with
              | ':' :: r2 =>
                  match parseVal fuel r2 with
                  | some vp =>
                      let acc := dictSet acc (String.mk kp.1) vp.1
                      match skipWs vp.2 with
                      | ',' :: r4 => parseMembers fuel r4 acc
                      | d :: r4 => if d = rbrace then some (.dict acc, r4) else Option.none
                      | [] => Option.none
                  | Option.none => Option.none
              | _ => Option.none
          | Option.none => Option.none
        else Option.none
    | [] => Option.none

/-- Array items after the opening bracket. -/
def parseItems : Nat → List Char → List PyVal → Option (PyVal × List Char)
  | 0, _, _ => Option.none
  | fuel + 1, l, acc =>
    match parseVal fuel l with
    | some vp =>
        match skipWs vp.2 with
        | ',' :: r2 => parseItems fuel r2 (vp.1 :: acc)
        | ']' :: r2 => some (.list (vp.1 :: acc).reverse, r2)
        | _ => Option.none
    | Option.none => Option.none

end

/-- Model of `json.loads`: parse one value, then require only whitespace to
remain. -/
def json_loads (s : String) : Option PyVal :=
  match parseVal (s.length + 1) s.data with
  | some vp => if skipWs vp.2 = [] then some vp.1 else Option.none
  | Option.none => Option.none

/-- Model of `re.search(r'\{[\s\S]*\}', response)`: the greedy match runs
from the first opening brace to the last closing brace, provided the
latter comes after the former. -/
def braceSpan (s : String) : Option String :=
  let cs := s.data
  match cs.findIdx? (fun c => c = lbrace), cs.reverse.findIdx? (fun c => c = rbrace) with
  | some i, some k =>
      let j := cs.length - 1 - k
      if i < j then some (String.mk ((cs.drop i).take (j - i + 1))) else Option.none
  | _, _ => Option.none

/-- The JSON-extraction step shared by `create_outline`,
`extract_pdf_content_structured` and `generate_image_prompts`: parse the
brace-delimited span when one exists, otherwise the whole response; `none`
models `json.JSONDecodeError`. -/
def extract_json (response : String) : Option PyVal :=
  match braceSpan response with
  | some sub => json_loads sub
  | Option.none => json_loads response

/-- The deterministic fallback outline substituted by `create_outline` on
a JSON parse failure. -/
def fallback_outline (topic : String) (num_chapters : Nat) : PyVal :=
  .dict [
    ("title_en", .str ("The " ++ topic ++ " Protocol")),
    ("title_pt", .str ("O Protocolo " ++ topic)),
    ("description_en", .str ("Break free from the Matrix with " ++ topic ++ ".")),
    ("description_pt", .str ("Liberte-se da Matrix com " ++ topic ++ ".")),
    ("chapters", .list ((List.range num_chapters).map (fun i : Nat => .dict [
      ("number", .int (Int.ofNat (i + 1))),
      ("title_en", .str ("Chapter " ++ toString (i + 1))),
      ("title_pt", .str ("Capitulo " ++ toString (i + 1))),
      ("summary_en", .str "Summary"),
      ("summary_pt", .str "Resumo"),
      ("key_points", .list [.str "point1", .str "point2"])])))]

/-- The response-processing part of `EbookGenerator.create_outline`: the
LLM call itself is an external capability, so the model takes the response
text as an argument.  A `json.JSONDecodeError` is caught and replaced by
the fallback outline; a successfully parsed value is returned as-is,
whatever its shape. -/
def create_outline (topic : String) (num_chapters : Nat) (response : String) : PyVal :=
  match extract_json response with
  | some j => j
  | Option.none => fallback_outline topic num_chapters

/-- The response-processing part of
`EbookGenerator.extract_pdf_content_structured`: a parse failure raises
`ValueError` (fatal), with no fallback. -/
def extract_pdf_content_structured (response : String) : Except PyErr PyVal :=
  match extract_json response with
  | some j => .ok j
  | Option.none => .error (.valueError "Failed to extract PDF content into valid JSON")

/-- Characters matched by Python's `re` class `\s` on `str` patterns. -/
def isPyRegexSpace (c : Char) : Bool :=
  let n := c.toNat
  n = 32 || (9 ≤ n ∧ n ≤ 13) || (28 ≤ n ∧ n ≤ 31) || n = 0x85 || n = 0xA0 ||
    n = 0x1680 || (0x2000 ≤ n ∧ n ≤ 0x200A) || n = 0x2028 || n = 0x2029 ||
    n = 0x202F || n = 0x205F || n = 0x3000

/-- Per-character model of Python's `str.lower`.  ASCII uppercase maps
into ASCII lowercase; U+212A KELVIN SIGN lowercases to ASCII `k` and
U+0130 LATIN CAPITAL LETTER I WITH DOT ABOVE to `i` followed by U+0307 —
the only Unicode mappings whose output contains ASCII.  Every other
character is kept as-is: its true lowercase form, like the character
itself, contains no character of the class `[a-z0-9\s-]` kept by the
subsequent `_slugify` filter, so the identity model is observationally
exact for slug derivation. -/
def pyLowerChar (c : Char) : List Char :=
  if 65 ≤ c.toNat ∧ c.toNat ≤ 90 then [Char.ofNat (c.toNat + 32)]
  else if c.toNat = 0x212A then ['k']
  else if c.toNat = 0x130 then ['i', Char.ofNat 0x307]
  else [c]

/-- Character class `[a-z0-9\s-]` retained by `_slugify`'s first
substitution. -/
def keepSlugChar (c : Char) : Bool :=
  (97 ≤ c.toNat && c.toNat ≤ 122) || (48 ≤ c.toNat && c.toNat ≤ 57) ||
    c = '-' || isPyRegexSpace c

/-- `re.sub(r'[^a-z0-9\s-]', '', slug)`. -/
def slugFilter (l : List Char) : List Char := l.filter keepSlugChar

/-- Characters collapsed by `re.sub(r'[\s_]+', '-', slug)`. -/
def isSpaceUnd (c : Char) : Bool := isPyRegexSpace c || c = '_'

/-- State-machine form of a regex substitution `re.sub(p+, rep, …)` on
character lists: every maximal run of `p`-characters is replaced by the
single character `rep` (`inRun` records whether the previous character
belonged to a run). -/
def subRunsAux (p : Char → Bool) (rep : Char) : Bool → List Char → List Char
  | _, [] => []
  | inRun, c :: rest =>
      if p c then
        if inRun then subRunsAux p rep true rest
        else rep :: subRunsAux p rep true rest
      else c :: subRunsAux p rep false rest

/-- `re.sub(r'[\s_]+', '-', slug)`: each maximal run becomes one hyphen. -/
def subSpaceRuns (l : List Char) : List Char := subRunsAux isSpaceUnd '-' false l

/-- Hyphen test for the run-collapsing and stripping passes. -/
def isDash (c : Char) : Bool := c = '-'

/-- `re.sub(r'-+', '-', slug)`. -/
def subDashRuns (l : List Char) : List Char := subRunsAux isDash '-' false l

/-- Python `slug.strip('-')`. -/
def stripDashes (l : List Char) : List Char :=
  ((l.dropWhile isDash).reverse.dropWhile isDash).reverse

/-- `EbookGenerator._slugify`: lowercase, drop characters outside
`[a-z0-9\s-]`, collapse whitespace/underscore runs to one hyphen, collapse
hyphen runs, strip leading/trailing hyphens. -/
def _slugify (text : String) : String :=
  String.mk (stripDashes (subDashRuns (subSpaceRuns (slugFilter
    (text.data.flatMap pyLowerChar)))))

/-- `main.slugify`: same pipeline with a final 50-character cap. -/
def slugify (text : String) : String :=
  String.mk ((_slugify text).data.take 50)

/-- The chapter dict returned by `EbookGenerator.write_chapter` (topic
mode) as a function of the outline stub and of the texts produced by the
external calls; models every dict access the source performs, in source
order, including the missing `max(1, …)` on the read-time estimate. -/
def write_chapter_record (chapter_info : PyVal) (content_en content_pt : String)
    (image_url : String) : Except PyErr PyVal := do
  let chapter_num ← pySubscr chapter_info "number"
  let title_en ← pySubscr chapter_info "title_en"
  let summary_en ← pySubscr chapter_info "summary_en"
  let _key_points ← pyGet chapter_info "key_points" (.list [])
  let title_pt ← pySubscr chapter_info "title_pt"
  let slug ← match title_en with
    | .str s => Except.ok (_slugify s)
    | _ => Except.error (.attributeError "object has no attribute lower")
  let summary_pt ← pySubscr chapter_info "summary_pt"
  pure (.dict [
    ("chapter_number", chapter_num),
    ("title_en", title_en),
    ("title_pt", title_pt),
    ("slug", .str slug),
    ("cover_image_url", .str image_url),
    ("content_en", .str content_en),
    ("content_pt", .str content_pt),
    ("summary_en", summary_en),
    ("summary_pt", summary_pt),
    ("estimated_read_time_minutes", .int ((pySplitWs content_en).length / 200)),
    ("is_free_preview", .bool (pyEqB chapter_num (.int 1))),
    ("is_published", .bool false)])

/-- `next((c for c in extracted_pt['chapters'] if c['number'] == ch_en['number']), {})`:
first Portuguese chapter with the matching number, `{}` when none matches;
a chapter without a `number` key raises before a later match is found. -/
def find_pt_chapter (pt_chapters : List PyVal) (num : PyVal) : Except PyErr PyVal :=
  match pt_chapters with
  | [] => .ok (.dict [])
  | c :: rest => do
      let k ← pySubscr c "number"
      if pyEqB k num then pure c else find_pt_chapter rest num

/-- `build_html(blocks) if blocks else ''` from the assembly loop. -/
def render_if_truthy (blocks : PyVal) : Except PyErr String :=
  if pyTruthy blocks then build_html blocks else pure ""

/-- One iteration of the Phase-6 chapter-assembly loop of
`EbookGenerator.generate_from_pdfs`: pair the English chapter with the
Portuguese chapter of equal number, render both block lists (an empty or
absent block list renders to the empty string), and build the chapter
dict — with Portuguese title defaulting to the English title and
Portuguese summary to the empty string when unmatched, and the read-time
floor of 1. -/
def pdf_chapter_record (ch_en : PyVal) (pt_chapters : List PyVal)
    (image_url : String) : Except PyErr PyVal := do
  let num ← pySubscr ch_en "number"
  let ch_pt ← find_pt_chapter pt_chapters num
  let blocks_en ← pyGet ch_en "blocks" (.list [])
  let blocks_pt ← pyGet ch_pt "blocks" (.list [])
  let content_en ← render_if_truthy blocks_en
  let content_pt ← render_if_truthy blocks_pt
  let title ← pySubscr ch_en "title"
  let title_pt ← pyGet ch_pt "title" title
  let slug ← match title with
    | .str s => Except.ok (_slugify s)
    | _ => Except.error (.attributeError "object has no attribute lower")
  let summary_en ← pyGet ch_en "summary" (.str "")
  let summary_pt ← pyGet ch_pt "summary" (.str "")
  pure (.dict [
    ("chapter_number", num),
    ("title_en", title),
    ("title_pt", title_pt),
    ("slug", .str slug),
    ("cover_image_url", .str image_url),
    ("content_en", .str content_en),
    ("content_pt", .str content_pt),
    ("summary_en", summary_en),
    ("summary_pt", summary_pt),
    ("estimated_read_time_minutes", .int (max 1 ((pySplitWs content_en).length / 200))),
    ("is_free_preview", .bool (pyEqB num (.int 1))),
    ("is_published", .bool false)])

/-- The chapter-assembly loop of `generate_from_pdfs` over
`zip(extracted_en['chapters'], chapter_images)` (`zip` truncates to the
shorter sequence; the caller builds exactly one image per English
chapter). -/
def assemble_pdf_chapters : List PyVal → List PyVal → List String →
    Except PyErr (List PyVal)
  | ch :: en_rest, pt_chapters, img :: img_rest => do
      let c ← pdf_chapter_record ch pt_chapters img
      let rest ← assemble_pdf_chapters en_rest pt_chapters img_rest
      pure (c :: rest)
  | _, _, _ => .ok []

/-- Eager key extraction of
`sorted(chapters, key=lambda x: x["chapter_number"])` (Python's `sorted`
calls `key` on every element up front).  Non-integer keys are rejected
here, where Python would raise `TypeError` during comparison unless every
key happened to be mutually comparable; behaviour is identical on the
integer chapter numbers the theorems assume. -/
def decorate_chapters : List PyVal → Except PyErr (List (Int × PyVal))
  | [] => .ok []
  | c :: rest => do
      let k ← pySubscr c "chapter_number"
      match k with
      | .int n => do
          let ps ← decorate_chapters rest
          pure ((n, c) :: ps)
      | _ => Except.error (.typeError "not supported between instances")

/-- Key order on decorated chapters. -/
def chLe (a b : Int × PyVal) : Prop := a.1 ≤ b.1

instance : DecidableRel chLe :=
  fun a b => inferInstanceAs (Decidable (a.1 ≤ b.1))

instance : IsTotal (Int × PyVal) chLe :=
  ⟨fun a b => Int.le_total a.1 b.1⟩

instance : IsTrans (Int × PyVal) chLe :=
  ⟨fun _ _ _ hab hbc => le_trans hab hbc⟩

/-- `sorted(chapters, key=lambda x: x["chapter_number"])`, the assembly
sort shared by `EbookGenerator.generate` and
`EbookGenerator.generate_from_pdfs`: Python's `sorted` is a stable
ascending sort by the extracted key, modelled by a stable insertion
sort on the decorated list. -/
def sort_chapters (chapters : List PyVal) : Except PyErr (List PyVal) := do
  let ps ← decorate_chapters chapters
  pure ((List.insertionSort chLe ps).map Prod.snd)

/-- `job_store.JobStatus`. -/
inductive JobStatus where
  | pending : JobStatus
  | processing : JobStatus
  | completed : JobStatus
  | failed : JobStatus
deriving DecidableEq

/-- Position of a status along the documented lifecycle
pending → processing → {completed, failed}. -/
def statusRank : JobStatus → Nat
  | .pending => 0
  | .processing => 1
  | .completed => 2
  | .failed => 2

/-- Terminal statuses. -/
def isTerminal : JobStatus → Bool
  | .completed => true
  | .failed => true
  | _ => false

/-- `job_store.Job` (timestamps abstracted to a monotone counter). -/
structure Job where
  id : String
  status : JobStatus
  progress : Int
  current_step : String
  ebook_id : Option String
  error : Option String
  created_at : Nat
  updated_at : Nat
deriving DecidableEq

/-- The keyword arguments of one `update_job(...)` call: a present field
is assigned with `setattr`, an absent one left unchanged.  (Keys that are
not `Job` attributes are silently skipped by the source's `hasattr` check
and so need no representation.) -/
structure JobUpdates where
  status : Option JobStatus
  progress : Option Int
  current_step : Option String
  ebook_id : Option String
  error : Option String
deriving DecidableEq

/-- `job_store.create_job` (the uuid and clock are external inputs). -/
def create_job (id : String) (now : Nat) : Job :=
  Job.mk id .pending 0 "" Option.none Option.none now now

/-- Field assignment performed by `update_job` on an existing job:
requested fields are overwritten unconditionally and `updated_at` is
refreshed. -/
def applyUpdates (j : Job) (u : JobUpdates) (now : Nat) : Job :=
  Job.mk j.id (u.status.getD j.status) (u.progress.getD j.progress)
    (u.current_step.getD j.current_step)
    (match u.ebook_id with | some v => some v | Option.none => j.ebook_id)
    (match u.error with | some v => some v | Option.none => j.error)
    j.created_at now

/-- `job_store.get_job`. -/
def get_job (store : List (String × Job)) (id : String) : Option Job :=
  match store with
  | [] => Option.none
  | kv :: rest => if kv.1 = id then some kv.2 else get_job rest id

/-- `job_store.update_job`: mutate the job when present, silently do
nothing otherwise. -/
def update_job (store : List (String × Job)) (id : String) (u : JobUpdates)
    (now : Nat) : List (String × Job) :=
  store.map (fun kv => if kv.1 = id then (kv.1, applyUpdates kv.2 u now) else kv)

/-- The `update_job` calls issued inside `run_pdf_generation`'s `try`
body, in source order (fields: status, progress, current_step, ebook_id,
error). -/
def pdfBodyUpdates (ebook_id : String) : List JobUpdates :=
  [JobUpdates.mk (some .processing) (some 5) (some "Initializing") Option.none Option.none,
   JobUpdates.mk Option.none (some 10) (some "Extracting PDF content") Option.none Option.none,
   JobUpdates.mk Option.none (some 15) (some "Processing with AI (this takes a few minutes)") Option.none Option.none,
   JobUpdates.mk Option.none (some 85) (some "Uploading images and saving to database") Option.none Option.none,
   JobUpdates.mk (some .completed) (some 100) (some "Complete") (some ebook_id) Option.none]

/-- The `update_job` call issued by `run_pdf_generation`'s `except`
handler. -/
def failUpdate (msg : String) : JobUpdates :=
  JobUpdates.mk (some .failed) Option.none (some "Failed") Option.none (some msg)

/-- The `update_job` sequence of one `run_pdf_generation` run:
`outcome = none` is a run whose `try` body completes; `outcome = some k`
is a run where an exception interrupts the body after `k` of its
`update_job` calls — i.e. anywhere up to the `completed` update — upon
which the handler issues the `failed` update.  (An exception raised after
the `completed` update, e.g. during temporary-directory cleanup, is the
one path outside this model; it would overwrite `completed` with
`failed`.) -/
def run_pdf_generation_updates (ebook_id msg : String) : Option (Fin 5) → List JobUpdates
  | Option.none => pdfBodyUpdates ebook_id
  | some k => (pdfBodyUpdates ebook_id).take k.val ++ [failUpdate msg]

/-- Statuses of the tracked job after each successive `update_job` call. -/
def statusTrace (id : String) (store : List (String × Job)) :
    List JobUpdates → Nat → List JobStatus
  | [], _ => []
  | u :: rest, now =>
      let store' := update_job store id u now
      (match get_job store' id with
        | some j => [j.status]
        | Option.none => []) ++ statusTrace id store' rest (now + 1)

end EbookGen

namespace EbookGen

/-- Lookup of a key in a dict-shaped value (observation helper used by the
claim statements). -/
def dictGet? (v : PyVal) (k : String) : Option PyVal :=
  match v with
  | .dict kvs => lookupKV kvs k
  | _ => Option.none

/-- The rendered string of a non-raising computation (observation helper
used by the claim statements; raising computations map to `""`). -/
def okOr (r : Except PyErr String) : String :=
  match r with
  | .ok s => s
  | .error _ => ""

theorem exceptBind_ok {α β : Type} {x : Except PyErr α} {f : α → Except PyErr β}
    {b : β} (h : x >>= f = .ok b) : ∃ a, x = .ok a ∧ f a = .ok b := by
  cases x with
  | ok a => exact ⟨a, rfl, h⟩
  | error e => exact absurd h (by simp [Bind.bind, Except.bind])

/-- C5, amended: whenever the JSON-extraction step fails on the outline
response (no brace-delimited span or whole response parses as JSON),
`create_outline` does not raise and returns the deterministic fallback
outline: bilingual title/description and exactly `num_chapters` chapter
stubs numbered `1..num_chapters` with templated bilingual titles,
bilingual summaries and key points.  (A response that parses as JSON but
lacks the expected outline shape is returned as-is — see the
counterexample.) -/
theorem create_outline_fallback (topic : String) (n : Nat) (response : String)
    (h : extract_json response = Option.none) :
    create_outline topic n response = fallback_outline topic n ∧
    ∃ stubs : List PyVal,
      dictGet? (create_outline topic n response) "chapters" = some (.list stubs) ∧
      stubs.length = n ∧
      (∀ i, i < n → stubs[i]? = some (.dict [
        ("number", .int (Int.ofNat (i + 1))),
        ("title_en", .str ("Chapter " ++ toString (i + 1))),
        ("title_pt", .str ("Capitulo " ++ toString (i + 1))),
        ("summary_en", .str "Summary"),
        ("summary_pt", .str "Resumo"),
        ("key_points", .list [.str "point1", .str "point2"])])) ∧
      dictGet? (create_outline topic n response) "title_en" =
        some (.str ("The " ++ topic ++ " Protocol")) ∧
      dictGet? (create_outline topic n response) "title_pt" =
        some (.str ("O Protocolo " ++ topic)) ∧
      dictGet? (create_outline topic n response) "description_en" =
        some (.str ("Break free from the Matrix with " ++ topic ++ ".")) ∧
      dictGet? (create_outline topic n response) "description_pt" =
        some (.str ("Liberte-se da Matrix com " ++ topic ++ ".")) := by
  have he : create_outline topic n response = fallback_outline topic n := by
    simp [create_outline, h]
  refine ⟨he, ?_⟩
  rw [he]
  refine ⟨(List.range n).map (fun i : Nat => .dict [
      ("number", .int (Int.ofNat (i + 1))),
      ("title_en", .str ("Chapter " ++ toString (i + 1))),
      ("title_pt", .str ("Capitulo " ++ toString (i + 1))),
      ("summary_en", .str "Summary"),
      ("summary_pt", .str "Resumo"),
      ("key_points", .list [.str "point1", .str "point2"])]), rfl,
    by rw [List.length_map, List.length_range], ?_, rfl, rfl, rfl, rfl⟩
  intro i hi
  rw [List.getElem?_map, List.getElem?_range hi]
  rfl

/-- C5 witness: a concrete non-JSON outline response takes the fallback
path. -/
theorem create_outline_fallback_witness :
    create_outline "Focus" 2 "Here is your outline: one, two." =
      fallback_outline "Focus" 2 :=
  (create_outline_fallback "Focus" 2 "Here is your outline: one, two." rfl).1

/-- C5 counterexample to the claim as stated: the response `"{}"` is not
parseable as the *expected* outline JSON — it has no chapters at all —
yet `create_outline` does not substitute the fallback: it returns the
parsed empty dict, which contains no chapter stubs (let alone
`chapter_count` of them) and no bilingual title/description. -/
theorem create_outline_counterexample :
    create_outline "Discipline" 3 "\x7b\x7d" = PyVal.dict [] ∧
    dictGet? (create_outline "Discipline" 3 "\x7b\x7d") "chapters" = Option.none ∧
    dictGet? (create_outline "Discipline" 3 "\x7b\x7d") "title_en" = Option.none ∧
    create_outline "Discipline" 3 "\x7b\x7d" ≠ fallback_outline "Discipline" 3 := by
  refine ⟨rfl, rfl, rfl, ?_⟩
  intro hcontra
  have : dictGet? (fallback_outline "Discipline" 3) "title_en" = Option.none := by
    rw [← hcontra]; rfl
  simp [fallback_outline, dictGet?, lookupKV] at this

/-- C6: whenever the JSON-extraction step fails on a PDF-classification
response, `extract_pdf_content_structured` raises `ValueError` — fatal,
with no fallback structure substituted — while the outline-parse step on
the same response never raises: it substitutes the fallback outline.  The
error kinds are distinct: a raised `ValueError` versus no exception at
all. -/
theorem extract_pdf_parse_failure_fatal (response : String)
    (h : extract_json response = Option.none) :
    extract_pdf_content_structured response =
      .error (.valueError "Failed to extract PDF content into valid JSON") ∧
    ∀ topic n, create_outline topic n response = fallback_outline topic n := by
  constructor
  · simp [extract_pdf_content_structured, h]
  · intro t n
    simp [create_outline, h]

/-- C6 witness: a concrete non-JSON classification response raises
`ValueError` while the outline step on the same response returns the
fallback. -/
theorem extract_pdf_parse_failure_fatal_witness :
    extract_pdf_content_structured "I could not classify this PDF." =
      .error (.valueError "Failed to extract PDF content into valid JSON") ∧
    create_outline "T" 4 "I could not classify this PDF." = fallback_outline "T" 4 := by
  have h := extract_pdf_parse_failure_fatal "I could not classify this PDF." rfl
  exact ⟨h.1, h.2 "T" 4⟩

end EbookGen

namespace EbookGen

set_option maxRecDepth 4000 in
/-- C4, amended: `build_video` classifies the `url` field — the claim's own
example URLs extract the documented video ids (`abc123` from
`https://youtu.be/abc123?t=5`, `55555` from a vimeo URL), and every URL
containing none of the youtube/vimeo markers passes through unmodified as
the embed target; such a block, however, is tagged with the *default* type
`"youtube"` (the initializer), not a generic/other type — see the
counterexample. -/
theorem build_video_classification :
    build_video (.dict [("url", .str "https://youtu.be/abc123?t=5")]) =
      .ok ("<div data-block=\"video\" data-video-type=\"youtube\" class=\"my-8\">\n    <div class=\"relative aspect-video rounded-lg overflow-hidden bg-neutral-800\">\n      <iframe src=\"https://www.youtube.com/embed/abc123\" title=\"Video\" allow=\"accelerometer; autoplay; clipboard-write; encrypted-media; gyroscope; picture-in-picture\" allowfullscreen class=\"absolute inset-0 w-full h-full\"></iframe>\n    </div>\n  </div>") ∧
    build_video (.dict [("url", .str "https://vimeo.com/55555")]) =
      .ok ("<div data-block=\"video\" data-video-type=\"vimeo\" class=\"my-8\">\n    <div class=\"relative aspect-video rounded-lg overflow-hidden bg-neutral-800\">\n      <iframe src=\"https://player.vimeo.com/video/55555\" title=\"Video\" allow=\"accelerometer; autoplay; clipboard-write; encrypted-media; gyroscope; picture-in-picture\" allowfullscreen class=\"absolute inset-0 w-full h-full\"></iframe>\n    </div>\n  </div>") ∧
    ∀ url : String, hasSub url "youtube.com" = false → hasSub url "youtu.be" = false →
      hasSub url "vimeo.com" = false →
      build_video (.dict [("url", .str url)]) =
        .ok ("<div data-block=\"video\" data-video-type=\"youtube\" class=\"my-8\">\n    <div class=\"relative aspect-video rounded-lg overflow-hidden bg-neutral-800\">\n      <iframe src=\"" ++ url ++ "\" title=\"Video\" allow=\"accelerometer; autoplay; clipboard-write; encrypted-media; gyroscope; picture-in-picture\" allowfullscreen class=\"absolute inset-0 w-full h-full\"></iframe>\n    </div>\n  </div>") := by
  refine ⟨rfl, rfl, ?_⟩
  intro url h1 h2 h3
  simp only [build_video, pyGet, lookupKV, pyContains, Bind.bind, Except.bind]
  simp [h1, h2, h3, escape, pyTruthy, pyStr, String.append_assoc]
  rfl

set_option maxRecDepth 4000 in
/-- C4 witness: a concrete non-youtube, non-vimeo URL passes through as
the embed target. -/
theorem build_video_classification_witness :
    build_video (.dict [("url", .str "ftp://files.example.net/clip.mov")]) =
      .ok ("<div data-block=\"video\" data-video-type=\"youtube\" class=\"my-8\">\n    <div class=\"relative aspect-video rounded-lg overflow-hidden bg-neutral-800\">\n      <iframe src=\"ftp://files.example.net/clip.mov\" title=\"Video\" allow=\"accelerometer; autoplay; clipboard-write; encrypted-media; gyroscope; picture-in-picture\" allowfullscreen class=\"absolute inset-0 w-full h-full\"></iframe>\n    </div>\n  </div>") :=
  build_video_classification.2.2 "ftp://files.example.net/clip.mov" rfl rfl rfl

set_option maxRecDepth 4000 in
/-- C4 counterexample to the claim as stated: for an arbitrary URL the
embed target does pass through unchanged, but the block is tagged
`data-video-type="youtube"` — the loop's initializer — and not with any
generic/other video type distinct from youtube/vimeo. -/
theorem build_video_generic_tag_counterexample :
    okOr (build_video (.dict [("url", .str "https://example.com/v.mp4")])) =
      "<div data-block=\"video\" data-video-type=\"youtube\" class=\"my-8\">\n    <div class=\"relative aspect-video rounded-lg overflow-hidden bg-neutral-800\">\n      <iframe src=\"https://example.com/v.mp4\" title=\"Video\" allow=\"accelerometer; autoplay; clipboard-write; encrypted-media; gyroscope; picture-in-picture\" allowfullscreen class=\"absolute inset-0 w-full h-full\"></iframe>\n    </div>\n  </div>" ∧
    hasSub (okOr (build_video (.dict [("url", .str "https://example.com/v.mp4")])))
      "data-video-type=\"youtube\"" = true ∧
    hasSub (okOr (build_video (.dict [("url", .str "https://example.com/v.mp4")])))
      "data-video-type=\"other\"" = false ∧
    hasSub (okOr (build_video (.dict [("url", .str "https://example.com/v.mp4")])))
      "data-video-type=\"generic\"" = false := by
  exact ⟨rfl, by decide, by decide, by decide⟩

/-- C7 counterexample to the claim as stated: `update_job` enforces no
ordering at all — a sequence of `update_job` calls can move a job that
reached the terminal status `completed` back to `pending`. -/
theorem update_job_backwards_counterexample :
    (get_job (update_job [("j1", create_job "j1" 0)] "j1"
        (JobUpdates.mk (some .completed) Option.none Option.none Option.none Option.none) 1)
      "j1").map Job.status = some JobStatus.completed ∧
    (get_job (update_job (update_job [("j1", create_job "j1" 0)] "j1"
        (JobUpdates.mk (some .completed) Option.none Option.none Option.none Option.none) 1)
      "j1" (JobUpdates.mk (some .pending) Option.none Option.none Option.none Option.none) 2)
      "j1").map Job.status = some JobStatus.pending ∧
    statusRank .pending < statusRank .completed := by
  exact ⟨rfl, rfl, by decide⟩

/-- C7, amended: the store itself does not enforce the lifecycle (see the
counterexample); forward motion is a property of the call sequences the
generation service issues.  For every run of `run_pdf_generation` — the
successful trace, or a trace interrupted by an exception at any point up
to the `completed` update — the job's status moves strictly forward along
pending → processing → {completed, failed}, and once a terminal status is
written no later update of the run changes it. -/
theorem run_pdf_generation_status_forward (o : Option (Fin 5)) (eb msg : String) :
    List.Chain' (fun a b => statusRank a ≤ statusRank b ∧ (isTerminal a = true → b = a))
      (JobStatus.pending :: statusTrace "j" [("j", create_job "j" 0)]
        (run_pdf_generation_updates eb msg o) 1) := by
  rcases o with _ | ⟨k, hk⟩
  · have htr : statusTrace "j" [("j", create_job "j" 0)]
        (run_pdf_generation_updates eb msg Option.none) 1 =
        [.processing, .processing, .processing, .processing, .completed] := rfl
    rw [htr]; simp [List.chain'_cons, statusRank, isTerminal]
  · interval_cases k
    · have htr : statusTrace "j" [("j", create_job "j" 0)]
          (run_pdf_generation_updates eb msg (some ⟨0, hk⟩)) 1 = [.failed] := rfl
      rw [htr]; simp [List.chain'_cons, statusRank, isTerminal]
    · have htr : statusTrace "j" [("j", create_job "j" 0)]
          (run_pdf_generation_updates eb msg (some ⟨1, hk⟩)) 1 =
          [.processing, .failed] := rfl
      rw [htr]; simp [List.chain'_cons, statusRank, isTerminal]
    · have htr : statusTrace "j" [("j", create_job "j" 0)]
          (run_pdf_generation_updates eb msg (some ⟨2, hk⟩)) 1 =
          [.processing, .processing, .failed] := rfl
      rw [htr]; simp [List.chain'_cons, statusRank, isTerminal]
    · have htr : statusTrace "j" [("j", create_job "j" 0)]
          (run_pdf_generation_updates eb msg (some ⟨3, hk⟩)) 1 =
          [.processing, .processing, .processing, .failed] := rfl
      rw [htr]; simp [List.chain'_cons, statusRank, isTerminal]
    · have htr : statusTrace "j" [("j", create_job "j" 0)]
          (run_pdf_generation_updates eb msg (some ⟨4, hk⟩)) 1 =
          [.processing, .processing, .processing, .processing, .failed] := rfl
      rw [htr]; simp [List.chain'_cons, statusRank, isTerminal]

end EbookGen

namespace EbookGen

/-- C7 witness: a concrete interrupted run (exception after two body
updates) produces the forward-moving trace pending, processing,
processing, failed. -/
theorem run_pdf_generation_status_forward_witness :
    List.Chain' (fun a b => statusRank a ≤ statusRank b ∧ (isTerminal a = true → b = a))
      (JobStatus.pending :: statusTrace "j" [("j", create_job "j" 0)]
        (run_pdf_generation_updates "ebook-1" "boom" (some ⟨2, by omega⟩)) 1) :=
  run_pdf_generation_status_forward (some ⟨2, by omega⟩) "ebook-1" "boom"

end EbookGen

namespace EbookGen

/-- C3, amended: the read-time field is floor(word_count/200) in both
modes, but the floor-at-1 exists only in PDF mode: `write_chapter` (topic
mode) stores `len(content_en.split()) // 200` with no minimum, while
`generate_from_pdfs` stores `max(1, …)`.  A 600-word chapter yields 3 in
both modes; a 50-word chapter yields 1 in PDF mode but 0 in topic mode
(see the counterexample). -/
theorem read_time_formulas :
    (∀ ci c_en c_pt img out, write_chapter_record ci c_en c_pt img = .ok out →
      dictGet? out "estimated_read_time_minutes" =
        some (.int ((pySplitWs c_en).length / 200))) ∧
    (∀ ch_en pts img out, pdf_chapter_record ch_en pts img = .ok out →
      ∃ c_en, dictGet? out "content_en" = some (.str c_en) ∧
        dictGet? out "estimated_read_time_minutes" =
          some (.int (max 1 ((pySplitWs c_en).length / 200)))) ∧
    (600 : Nat) / 200 = 3 ∧ (50 : Nat) / 200 = 0 ∧ max 1 ((50 : Nat) / 200) = 1 := by
  refine ⟨?_, ?_, by norm_num, by norm_num, by norm_num⟩
  · intro ci c_en c_pt img out h
    simp only [write_chapter_record] at h
    obtain ⟨num, h1, h⟩ := exceptBind_ok h
    obtain ⟨te, h2, h⟩ := exceptBind_ok h
    obtain ⟨se, h3, h⟩ := exceptBind_ok h
    obtain ⟨kp, h4, h⟩ := exceptBind_ok h
    obtain ⟨tp, h5, h⟩ := exceptBind_ok h
    cases te
    case str s =>
      obtain ⟨sl, h6, h⟩ := exceptBind_ok h
      obtain ⟨sp, h7, h⟩ := exceptBind_ok h
      cases h
      rfl
    all_goals simp [Bind.bind, Except.bind] at h
  · intro ch_en pts img out h
    simp only [pdf_chapter_record] at h
    obtain ⟨num, h1, h⟩ := exceptBind_ok h
    obtain ⟨chpt, h2, h⟩ := exceptBind_ok h
    obtain ⟨ben, h3, h⟩ := exceptBind_ok h
    obtain ⟨bpt, h4, h⟩ := exceptBind_ok h
    obtain ⟨cen, h5, h⟩ := exceptBind_ok h
    obtain ⟨cpt, h6, h⟩ := exceptBind_ok h
    obtain ⟨ttl, h7, h⟩ := exceptBind_ok h
    obtain ⟨tpt, h8, h⟩ := exceptBind_ok h
    cases ttl
    case str s =>
      obtain ⟨sl, h9, h⟩ := exceptBind_ok h
      obtain ⟨sen, h10, h⟩ := exceptBind_ok h
      obtain ⟨spt, h11, h⟩ := exceptBind_ok h
      cases h
      exact ⟨cen, rfl, rfl⟩
    all_goals simp [Bind.bind, Except.bind] at h

/-- C3 witness: a concrete three-word topic-mode chapter record carries
floor(3/200) = 0 read minutes, exactly the formula of the theorem. -/
theorem read_time_formulas_witness :
    write_chapter_record
        (.dict [("number", .int 2), ("title_en", .str "Test"),
          ("title_pt", .str "Teste"), ("summary_en", .str "s"),
          ("summary_pt", .str "r")])
        "alpha beta gamma" "" "img" =
      .ok (.dict [
        ("chapter_number", .int 2),
        ("title_en", .str "Test"),
        ("title_pt", .str "Teste"),
        ("slug", .str "test"),
        ("cover_image_url", .str "img"),
        ("content_en", .str "alpha beta gamma"),
        ("content_pt", .str ""),
        ("summary_en", .str "s"),
        ("summary_pt", .str "r"),
        ("estimated_read_time_minutes", .int 0),
        ("is_free_preview", .bool false),
        ("is_published", .bool false)]) ∧
    dictGet? (.dict [
        ("chapter_number", .int 2),
        ("title_en", .str "Test"),
        ("title_pt", .str "Teste"),
        ("slug", .str "test"),
        ("cover_image_url", .str "img"),
        ("content_en", .str "alpha beta gamma"),
        ("content_pt", .str ""),
        ("summary_en", .str "s"),
        ("summary_pt", .str "r"),
        ("estimated_read_time_minutes", .int 0),
        ("is_free_preview", .bool false),
        ("is_published", .bool false)]) "estimated_read_time_minutes" =
      some (.int ((pySplitWs "alpha beta gamma").length / 200)) := by
  constructor
  · rfl
  · exact read_time_formulas.1
      (.dict [("number", .int 2), ("title_en", .str "Test"),
        ("title_pt", .str "Teste"), ("summary_en", .str "s"),
        ("summary_pt", .str "r")])
      "alpha beta gamma" "" "img" _ rfl

set_option maxRecDepth 8000 in
/-- C3 counterexample to the claim as stated: a topic-mode chapter whose
English content has exactly 50 words gets estimated_read_time_minutes 0,
not the claimed minimum of 1; the same 50 words in PDF mode (as one
paragraph block) get 1. -/
theorem read_time_counterexample :
    (pySplitWs "w w w w w w w w w w w w w w w w w w w w w w w w w w w w w w w w w w w w w w w w w w w w w w w w w w").length = 50 ∧
    (match write_chapter_record
        (.dict [("number", .int 2), ("title_en", .str "Test"),
          ("title_pt", .str "Teste"), ("summary_en", .str "s"),
          ("summary_pt", .str "r")]) "w w w w w w w w w w w w w w w w w w w w w w w w w w w w w w w w w w w w w w w w w w w w w w w w w w" "" "img" with
      | .ok out => dictGet? out "estimated_read_time_minutes"
      | .error _ => Option.none) = some (.int 0) ∧
    (match pdf_chapter_record
        (.dict [("number", .int 2), ("title", .str "Test"),
          ("blocks", .list [.dict [("type", .str "paragraph"), ("text", .str "w w w w w w w w w w w w w w w w w w w w w w w w w w w w w w w w w w w w w w w w w w w w w w w w w w")]])])
        [] "img" with
      | .ok out => dictGet? out "estimated_read_time_minutes"
      | .error _ => Option.none) = some (.int 1) := by
  exact ⟨rfl, rfl, rfl⟩

end EbookGen

namespace EbookGen

/-- Extracted integer chapter number of an assembled chapter, when
present. -/
def keyNum? (c : PyVal) : Option Int :=
  match pySubscr c "chapter_number" with
  | .ok (.int n) => some n
  | _ => Option.none

theorem decorate_chapters_ok {chs : List PyVal} {ps : List (Int × PyVal)}
    (h : decorate_chapters chs = .ok ps) :
    ps.map Prod.snd = chs ∧ ∀ p ∈ ps, keyNum? p.2 = some p.1 := by
  induction chs generalizing ps with
  | nil =>
      simp only [decorate_chapters] at h
      cases h
      exact ⟨rfl, by simp⟩
  | cons c rest ih =>
      simp only [decorate_chapters] at h
      obtain ⟨k, h1, h⟩ := exceptBind_ok h
      cases k
      case int n =>
        obtain ⟨ps', h2, h⟩ := exceptBind_ok h
        cases h
        obtain ⟨hm, hk⟩ := ih h2
        refine ⟨by simp [hm], ?_⟩
        intro p hp
        rcases List.mem_cons.mp hp with rfl | hp'
        · simp [keyNum?, h1]
        · exact hk p hp'
      all_goals exact absurd h (by simp)

/-- C9: in both generation modes the assembled chapters list is the sorted
(by integer `chapter_number`, ascending, stable) permutation of the
per-chapter results, independent of their input or completion order; the
order is strictly ascending whenever the chapter numbers are pairwise
distinct. -/
theorem sort_chapters_spec (chs out : List PyVal)
    (h : sort_chapters chs = .ok out) :
    out.Perm chs ∧
    List.Pairwise (fun a b => ∀ x ∈ keyNum? a, ∀ y ∈ keyNum? b, x ≤ y) out ∧
    ((chs.map keyNum?).Nodup →
      List.Pairwise (fun a b => ∀ x ∈ keyNum? a, ∀ y ∈ keyNum? b, x < y) out) := by
  simp only [sort_chapters] at h
  obtain ⟨ps, hd, h⟩ := exceptBind_ok h
  cases h
  obtain ⟨hmap, hkey⟩ := decorate_chapters_ok hd
  have hperm : ((List.insertionSort chLe ps).map Prod.snd).Perm chs := by
    rw [← hmap]
    exact (List.perm_insertionSort chLe ps).map Prod.snd
  have hsorted : List.Pairwise chLe (List.insertionSort chLe ps) :=
    List.sorted_insertionSort chLe ps
  have hkey' : ∀ p ∈ List.insertionSort chLe ps, keyNum? p.2 = some p.1 := by
    intro p hp
    exact hkey p ((List.perm_insertionSort chLe ps).mem_iff.mp hp)
  refine ⟨hperm, ?_, ?_⟩
  · rw [List.pairwise_map]
    refine List.Pairwise.imp_of_mem ?_ hsorted
    intro a b ha hb hab x hx y hy
    rw [hkey' a ha, Option.mem_def] at hx
    rw [hkey' b hb, Option.mem_def] at hy
    cases Option.some_inj.mp hx
    cases Option.some_inj.mp hy
    exact hab
  · intro hnd
    have h1 : chs.map keyNum? = ps.map (fun p => some p.1) := by
      rw [← hmap, List.map_map]
      exact List.map_congr_left (fun p hp => hkey p hp)
    rw [h1] at hnd
    have h2 : (ps.map Prod.fst).Nodup := by
      have hms : ps.map (fun p => some p.1) = (ps.map Prod.fst).map some := by
        rw [List.map_map]
        rfl
      rw [hms] at hnd
      exact hnd.of_map some
    have h3 : ((List.insertionSort chLe ps).map Prod.fst).Nodup := by
      have hp : (ps.map Prod.fst).Perm ((List.insertionSort chLe ps).map Prod.fst) :=
        ((List.perm_insertionSort chLe ps).map Prod.fst).symm
      exact hp.nodup h2
    have h4 : List.Pairwise (fun p q : Int × PyVal => p.1 ≠ q.1)
        (List.insertionSort chLe ps) := by
      rw [List.Nodup, List.pairwise_map] at h3
      exact h3
    rw [List.pairwise_map]
    refine List.Pairwise.imp_of_mem ?_ (hsorted.and h4)
    intro a b ha hb hr x hx y hy
    rw [hkey' a ha, Option.mem_def] at hx
    rw [hkey' b hb, Option.mem_def] at hy
    cases Option.some_inj.mp hx
    cases Option.some_inj.mp hy
    exact lt_of_le_of_ne hr.1 hr.2

/-- C9 witness: three chapters arriving as 3, 1, 2 are assembled in
strictly ascending order 1, 2, 3. -/
theorem sort_chapters_spec_witness :
    sort_chapters [
        .dict [("chapter_number", .int 3), ("title_en", .str "c")],
        .dict [("chapter_number", .int 1), ("title_en", .str "a")],
        .dict [("chapter_number", .int 2), ("title_en", .str "b")]] =
      .ok [
        .dict [("chapter_number", .int 1), ("title_en", .str "a")],
        .dict [("chapter_number", .int 2), ("title_en", .str "b")],
        .dict [("chapter_number", .int 3), ("title_en", .str "c")]] ∧
    ([PyVal.dict [("chapter_number", .int 1), ("title_en", .str "a")],
      PyVal.dict [("chapter_number", .int 2), ("title_en", .str "b")],
      PyVal.dict [("chapter_number", .int 3), ("title_en", .str "c")]]).Perm [
        .dict [("chapter_number", .int 3), ("title_en", .str "c")],
        .dict [("chapter_number", .int 1), ("title_en", .str "a")],
        .dict [("chapter_number", .int 2), ("title_en", .str "b")]] := by
  constructor
  · rfl
  · exact (sort_chapters_spec
      [.dict [("chapter_number", .int 3), ("title_en", .str "c")],
       .dict [("chapter_number", .int 1), ("title_en", .str "a")],
       .dict [("chapter_number", .int 2), ("title_en", .str "b")]]
      [.dict [("chapter_number", .int 1), ("title_en", .str "a")],
       .dict [("chapter_number", .int 2), ("title_en", .str "b")],
       .dict [("chapter_number", .int 3), ("title_en", .str "c")]] rfl).1

end EbookGen

namespace EbookGen

theorem pySubscr_of_dictGet? {c : PyVal} {k : String} {v : PyVal}
    (h : dictGet? c k = some v) : pySubscr c k = .ok v := by
  cases c
  case dict kvs =>
    simp only [dictGet?] at h
    simp [pySubscr, h]
  all_goals simp [dictGet?] at h

theorem find_pt_chapter_none {pt : List PyVal} {num : PyVal}
    (h : ∀ c ∈ pt, ∃ k, dictGet? c "number" = some k ∧ pyEqB k num = false) :
    find_pt_chapter pt num = .ok (.dict []) := by
  induction pt with
  | nil => rfl
  | cons c rest ih =>
      obtain ⟨k, hk, hne⟩ := h c (List.mem_cons_self c rest)
      have hsub := pySubscr_of_dictGet? hk
      simp only [find_pt_chapter, hsub, Bind.bind, Except.bind, hne]
      simp only [Bool.false_eq_true, if_false]
      exact ih (fun c' hc' => h c' (List.mem_cons_of_mem c hc'))

theorem assemble_ok_parts {en pt : List PyVal} {imgs : List String}
    {out : List PyVal} (h : assemble_pdf_chapters en pt imgs = .ok out) :
    out.length = min en.length imgs.length ∧
    ∀ (i : Nat) (ch : PyVal) (img : String), en[i]? = some ch → imgs[i]? = some img →
      ∃ c, out[i]? = some c ∧ pdf_chapter_record ch pt img = .ok c := by
  induction en generalizing imgs out with
  | nil =>
      simp only [assemble_pdf_chapters] at h
      cases h
      exact ⟨by simp, by intro i ch img hch himg; simp at hch⟩
  | cons ch0 en_rest ih =>
      cases imgs with
      | nil =>
          simp only [assemble_pdf_chapters] at h
          cases h
          exact ⟨by simp, by intro i ch img hch himg; simp at himg⟩
      | cons img0 img_rest =>
          simp only [assemble_pdf_chapters] at h
          obtain ⟨c, h1, h⟩ := exceptBind_ok h
          obtain ⟨rest, h2, h⟩ := exceptBind_ok h
          cases h
          obtain ⟨hlen, hget⟩ := ih h2
          refine ⟨by simp [hlen, Nat.succ_min_succ], ?_⟩
          intro i ch img hch himg
          cases i with
          | zero =>
              simp only [List.getElem?_cons_zero, Option.some_inj] at hch himg
              subst hch
              subst himg
              exact ⟨c, by simp, h1⟩
          | succ j =>
              simp only [List.getElem?_cons_succ] at hch himg ⊢
              exact hget j ch img hch himg

theorem pdf_record_missing_pt {ch : PyVal} {pt : List PyVal} {img : String}
    {c num title : PyVal}
    (h : pdf_chapter_record ch pt img = .ok c)
    (hnum : dictGet? ch "number" = some num)
    (htitle : dictGet? ch "title" = some title)
    (hfind : find_pt_chapter pt num = .ok (.dict [])) :
    dictGet? c "chapter_number" = some num ∧
    dictGet? c "title_pt" = some title ∧
    dictGet? c "content_pt" = some (.str "") ∧
    dictGet? c "summary_pt" = some (.str "") := by
  have hsub : pySubscr ch "number" = .ok num := pySubscr_of_dictGet? hnum
  have hsubt : pySubscr ch "title" = .ok title := pySubscr_of_dictGet? htitle
  simp only [pdf_chapter_record] at h
  obtain ⟨num', hh1, h⟩ := exceptBind_ok h
  rw [hsub] at hh1
  obtain rfl : num = num' := Except.ok.inj hh1
  obtain ⟨chpt, hh2, h⟩ := exceptBind_ok h
  rw [hfind] at hh2
  obtain rfl : PyVal.dict [] = chpt := Except.ok.inj hh2
  obtain ⟨ben, hh3, h⟩ := exceptBind_ok h
  obtain ⟨bpt, hh4, h⟩ := exceptBind_ok h
  obtain rfl : PyVal.list [] = bpt := Except.ok.inj hh4
  obtain ⟨cen, hh5, h⟩ := exceptBind_ok h
  obtain ⟨cpt, hh6, h⟩ := exceptBind_ok h
  obtain rfl : "" = cpt := Except.ok.inj hh6
  obtain ⟨ttl, hh7, h⟩ := exceptBind_ok h
  rw [hsubt] at hh7
  obtain rfl : title = ttl := Except.ok.inj hh7
  obtain ⟨tpt, hh8, h⟩ := exceptBind_ok h
  obtain rfl : title = tpt := Except.ok.inj hh8
  cases title
  case str s =>
    obtain ⟨sl, hh9, h⟩ := exceptBind_ok h
    obtain ⟨sen, hh10, h⟩ := exceptBind_ok h
    obtain ⟨spt, hh11, h⟩ := exceptBind_ok h
    obtain rfl : PyVal.str "" = spt := Except.ok.inj hh11
    cases h
    exact ⟨rfl, rfl, rfl, rfl⟩
  all_goals simp [Bind.bind, Except.bind] at h

/-- C8: in PDF mode, an English chapter whose number has no matching
Portuguese chapter is never dropped: the assembled list keeps one chapter
per zipped English chapter and the chapter at the English chapter's
position exists, with `title_pt` defaulted to the English title and
`content_pt` and `summary_pt` defaulted to empty strings. -/
theorem pdf_missing_pt_defaults (en pt : List PyVal) (imgs : List String)
    (out : List PyVal) (i : Nat) (ch_en num title : PyVal)
    (hok : assemble_pdf_chapters en pt imgs = .ok out)
    (hch : en[i]? = some ch_en)
    (himg : ∃ img, imgs[i]? = some img)
    (hnum : dictGet? ch_en "number" = some num)
    (htitle : dictGet? ch_en "title" = some title)
    (hmiss : ∀ c ∈ pt, ∃ k, dictGet? c "number" = some k ∧ pyEqB k num = false) :
    out.length = min en.length imgs.length ∧
    ∃ c, out[i]? = some c ∧
      dictGet? c "chapter_number" = some num ∧
      dictGet? c "title_pt" = some title ∧
      dictGet? c "content_pt" = some (.str "") ∧
      dictGet? c "summary_pt" = some (.str "") := by
  obtain ⟨img, himg⟩ := himg
  obtain ⟨hlen, hget⟩ := assemble_ok_parts hok
  obtain ⟨c, hc, hrec⟩ := hget i ch_en img hch himg
  obtain ⟨d1, d2, d3, d4⟩ :=
    pdf_record_missing_pt hrec hnum htitle (find_pt_chapter_none hmiss)
  exact ⟨hlen, c, hc, d1, d2, d3, d4⟩

/-- C8 witness: one English chapter numbered 4 with no Portuguese
counterpart is assembled, not dropped, with the documented defaults. -/
theorem pdf_missing_pt_defaults_witness :
    assemble_pdf_chapters
        [.dict [("number", .int 4), ("title", .str "Four")]]
        [.dict [("number", .int 1), ("title", .str "Um")]]
        ["img4"] =
      .ok [.dict [
        ("chapter_number", .int 4),
        ("title_en", .str "Four"),
        ("title_pt", .str "Four"),
        ("slug", .str "four"),
        ("cover_image_url", .str "img4"),
        ("content_en", .str ""),
        ("content_pt", .str ""),
        ("summary_en", .str ""),
        ("summary_pt", .str ""),
        ("estimated_read_time_minutes", .int 1),
        ("is_free_preview", .bool false),
        ("is_published", .bool false)]] ∧
    ([PyVal.dict [
        ("chapter_number", .int 4),
        ("title_en", .str "Four"),
        ("title_pt", .str "Four"),
        ("slug", .str "four"),
        ("cover_image_url", .str "img4"),
        ("content_en", .str ""),
        ("content_pt", .str ""),
        ("summary_en", .str ""),
        ("summary_pt", .str ""),
        ("estimated_read_time_minutes", .int 1),
        ("is_free_preview", .bool false),
        ("is_published", .bool false)]]).length =
      min ([PyVal.dict [("number", .int 4), ("title", .str "Four")]].length)
        (["img4"].length) := by
  constructor
  · rfl
  · exact (pdf_missing_pt_defaults
      [.dict [("number", .int 4), ("title", .str "Four")]]
      [.dict [("number", .int 1), ("title", .str "Um")]]
      ["img4"]
      [.dict [
        ("chapter_number", .int 4),
        ("title_en", .str "Four"),
        ("title_pt", .str "Four"),
        ("slug", .str "four"),
        ("cover_image_url", .str "img4"),
        ("content_en", .str ""),
        ("content_pt", .str ""),
        ("summary_en", .str ""),
        ("summary_pt", .str ""),
        ("estimated_read_time_minutes", .int 1),
        ("is_free_preview", .bool false),
        ("is_published", .bool false)]]
      0 (.dict [("number", .int 4), ("title", .str "Four")]) (.int 4) (.str "Four")
      rfl rfl ⟨"img4", rfl⟩ rfl rfl
      (by
        intro c hc
        rcases List.mem_singleton.mp hc with rfl
        exact ⟨.int 1, rfl, rfl⟩)).1

end EbookGen

namespace EbookGen

/-- Characters allowed in a finished slug. -/
def isSlugChar (c : Char) : Bool :=
  (97 ≤ c.toNat && c.toNat ≤ 122) || (48 ≤ c.toNat && c.toNat ≤ 57) || c = '-'

/-- Does the string contain an ASCII alphanumeric character? -/
def hasAsciiAlnum (s : String) : Bool :=
  s.data.any (fun c => (65 ≤ c.toNat && c.toNat ≤ 90) ||
    (97 ≤ c.toNat && c.toNat ≤ 122) || (48 ≤ c.toNat && c.toNat ≤ 57))

/-- No two adjacent hyphens. -/
def noTwoDashes : List Char → Bool
  | [] => true
  | [_] => true
  | c :: d :: rest => !(isDash c && isDash d) && noTwoDashes (d :: rest)

theorem mem_subRunsAux {p : Char → Bool} {rep : Char} {inRun : Bool}
    {l : List Char} {c : Char} (h : c ∈ subRunsAux p rep inRun l) :
    c = rep ∨ (c ∈ l ∧ p c = false) := by
  induction l generalizing inRun with
  | nil => simp [subRunsAux] at h
  | cons d rest ih =>
      simp only [subRunsAux] at h
      by_cases hp : p d
      · simp only [hp, if_true] at h
        cases inRun with
        | true =>
            rcases ih h with hc | ⟨hm, hpc⟩
            · exact Or.inl hc
            · exact Or.inr ⟨List.mem_cons_of_mem d hm, hpc⟩
        | false =>
            rcases List.mem_cons.mp h with rfl | h'
            · exact Or.inl rfl
            · rcases ih h' with hc | ⟨hm, hpc⟩
              · exact Or.inl hc
              · exact Or.inr ⟨List.mem_cons_of_mem d hm, hpc⟩
      · simp only [hp, Bool.false_eq_true, if_false] at h
        rcases List.mem_cons.mp h with rfl | h'
        · exact Or.inr ⟨List.mem_cons_self c rest, Bool.eq_false_iff.mpr hp⟩
        · rcases ih h' with hc | ⟨hm, hpc⟩
          · exact Or.inl hc
          · exact Or.inr ⟨List.mem_cons_of_mem d hm, hpc⟩

theorem subRunsAux_true_head {p : Char → Bool} {rep : Char} {l : List Char}
    {c : Char} (h : (subRunsAux p rep true l).head? = some c) : p c = false := by
  induction l with
  | nil => simp [subRunsAux] at h
  | cons d rest ih =>
      simp only [subRunsAux] at h
      by_cases hp : p d
      · simp only [hp, if_true] at h
        exact ih h
      · simp only [hp, Bool.false_eq_true, if_false, List.head?_cons,
          Option.some_inj] at h
        subst h
        simpa using hp

theorem noTwoDashes_subRunsAux (l : List Char) (inRun : Bool) :
    noTwoDashes (subRunsAux isDash '-' inRun l) = true := by
  induction l generalizing inRun with
  | nil => rfl
  | cons d rest ih =>
      simp only [subRunsAux]
      by_cases hp : isDash d
      · simp only [hp, if_true]
        cases inRun with
        | true => exact ih true
        | false =>
            simp only [Bool.false_eq_true, if_false]
            cases hX : subRunsAux isDash '-' true rest with
            | nil => rfl
            | cons x xs =>
                have hx : isDash x = false := by
                  have hhd : (subRunsAux isDash '-' true rest).head? = some x := by
                    rw [hX]
                    rfl
                  exact subRunsAux_true_head hhd
                have hrest := ih true
                rw [hX] at hrest
                simp [noTwoDashes, hx, hrest]
      · simp only [hp, Bool.false_eq_true, if_false]
        cases hX : subRunsAux isDash '-' false rest with
        | nil => rfl
        | cons x xs =>
            have hrest := ih false
            rw [hX] at hrest
            simp [noTwoDashes, hp, hrest]

theorem noTwoDashes_tail {c : Char} {t : List Char}
    (h : noTwoDashes (c :: t) = true) : noTwoDashes t = true := by
  cases t with
  | nil => rfl
  | cons d rest =>
      simp only [noTwoDashes, Bool.and_eq_true] at h
      exact h.2

theorem noTwoDashes_append_right {a b : List Char}
    (h : noTwoDashes (a ++ b) = true) : noTwoDashes b = true := by
  induction a with
  | nil => exact h
  | cons c a' ih => exact ih (noTwoDashes_tail h)

theorem noTwoDashes_append_left {a b : List Char}
    (h : noTwoDashes (a ++ b) = true) : noTwoDashes a = true := by
  induction a with
  | nil => rfl
  | cons c a' ih =>
      cases a' with
      | nil => rfl
      | cons d a'' =>
          simp only [List.cons_append, noTwoDashes, Bool.and_eq_true] at h ⊢
          exact ⟨h.1, by simpa using ih (by simpa using h.2)⟩

theorem noTwoDashes_of_mid {m l : List Char} (hml : m <:+: l)
    (h : noTwoDashes l = true) : noTwoDashes m = true := by
  obtain ⟨s, t, rfl⟩ := hml
  rw [List.append_assoc] at h
  exact noTwoDashes_append_left (noTwoDashes_append_right h)

theorem stripDashes_infix_self (l : List Char) : stripDashes l <:+: l := by
  unfold stripDashes
  have h1 : l.dropWhile isDash <:+ l := List.dropWhile_suffix isDash
  have h2 : (l.dropWhile isDash).reverse.dropWhile isDash <:+
      (l.dropWhile isDash).reverse := List.dropWhile_suffix isDash
  obtain ⟨t, ht⟩ := h2
  have h3 : ((l.dropWhile isDash).reverse.dropWhile isDash).reverse <+:
      l.dropWhile isDash := by
    refine ⟨t.reverse, ?_⟩
    rw [← List.reverse_append, ht, List.reverse_reverse]
  exact h3.isInfix.trans h1.isInfix

theorem stripDashes_head {l : List Char} {c : Char}
    (h : (stripDashes l).head? = some c) : isDash c = false := by
  unfold stripDashes at h
  rw [List.head?_reverse] at h
  have hY : (l.dropWhile isDash).reverse.dropWhile isDash ≠ [] := by
    intro he
    rw [he] at h
    simp at h
  obtain ⟨t, ht⟩ := @List.dropWhile_suffix Char (l.dropWhile isDash).reverse isDash
  have hlast : ((l.dropWhile isDash).reverse.dropWhile isDash).getLast? =
      ((l.dropWhile isDash).reverse).getLast? := by
    conv_rhs => rw [← ht]
    rw [List.getLast?_append]
    cases hg : ((l.dropWhile isDash).reverse.dropWhile isDash).getLast? with
    | none =>
        exact absurd (List.getLast?_eq_none_iff.mp hg) hY
    | some x => rfl
  rw [hlast, List.getLast?_reverse] at h
  have := List.head?_dropWhile_not isDash l
  rw [h] at this
  exact this

theorem stripDashes_last {l : List Char} {c : Char}
    (h : (stripDashes l).getLast? = some c) : isDash c = false := by
  unfold stripDashes at h
  rw [List.getLast?_reverse] at h
  have := List.head?_dropWhile_not isDash (l.dropWhile isDash).reverse
  rw [h] at this
  exact this

end EbookGen

namespace EbookGen

/-- C10, amended: for every input string, `_slugify` returns only
lowercase ASCII letters, digits and hyphens, never starting or ending
with a hyphen and never containing two consecutive hyphens; the result
can be empty — a fully accented or punctuation-only title slugifies to
the empty string, so emitted slugs can be empty — but not *every* string
without ASCII alphanumerics does: U+212A KELVIN SIGN lowercases to the
ASCII letter `k` (see the counterexample). -/
theorem slugify_shape :
    (∀ s : String, ∀ c ∈ (_slugify s).data, isSlugChar c = true) ∧
    (∀ s : String, noTwoDashes (_slugify s).data = true) ∧
    (∀ (s : String) (c : Char),
      ((_slugify s).data.head? = some c → c ≠ '-') ∧
      ((_slugify s).data.getLast? = some c → c ≠ '-')) ∧
    hasAsciiAlnum "Éàç!?" = false ∧ _slugify "Éàç!?" = "" := by
  refine ⟨?_, ?_, ?_, rfl, rfl⟩
  · intro s c hc
    have h3 : c ∈ subDashRuns (subSpaceRuns (slugFilter (s.data.flatMap pyLowerChar))) :=
      (stripDashes_infix_self _).subset hc
    rcases mem_subRunsAux h3 with rfl | ⟨h2, _⟩
    · rfl
    · rcases mem_subRunsAux h2 with rfl | ⟨h1, hsp⟩
      · rfl
      · have hk : keepSlugChar c = true := (List.mem_filter.mp h1).2
        simp only [keepSlugChar, Bool.or_eq_true] at hk
        rcases hk with ((hlow | hdig) | hdash) | hspace
        · simp [isSlugChar, hlow]
        · simp [isSlugChar, hdig]
        · simp [isSlugChar, hdash]
        · exact absurd hsp (by simp [isSpaceUnd, hspace])
  · intro s
    exact noTwoDashes_of_mid (stripDashes_infix_self _) (noTwoDashes_subRunsAux _ false)
  · intro s c
    constructor
    · intro h
      have := stripDashes_head h
      simpa [isDash] using this
    · intro h
      have := stripDashes_last h
      simpa [isDash] using this

/-- C10 witness: the shape theorem applied to concrete titles. -/
theorem slugify_shape_witness :
    ('h' : Char) ≠ '-' ∧ noTwoDashes (_slugify "Alpha -- Beta!").data = true :=
  ⟨(slugify_shape.2.2.1 "Hello World" 'h').1 rfl, slugify_shape.2.1 "Alpha -- Beta!"⟩

/-- C10 counterexample to the claim as stated: the string consisting of
the single character U+212A (KELVIN SIGN) contains no ASCII alphanumeric
character, yet its slug is "k", not the empty string — Python's
`str.lower` maps U+212A to ASCII `k`. -/
theorem slugify_kelvin_counterexample :
    hasAsciiAlnum "K" = false ∧ _slugify "K" = "k" ∧ ("k" : String) ≠ "" := by
  exact ⟨rfl, rfl, by decide⟩

end EbookGen

namespace EbookGen

/-- Does a render computation succeed (no Python exception)? -/
def pyOk : Except PyErr String → Bool
  | .ok _ => true
  | .error _ => false

/-- The string a successful per-block render produces. -/
def rbVal (b : PyVal) : String := okOr (render_block b)

/-- A dict-shaped block whose `type` value (defaulting to `"paragraph"`)
is hashable — the condition under which `build_html`'s per-block
processing cannot propagate an exception. -/
def dictWithHashableType : PyVal → Bool
  | .dict kvs =>
      match (lookupKV kvs "type").getD (.str "paragraph") with
      | .list _ => false
      | .dict _ => false
      | _ => true
  | _ => false

/-- Does the builder raise on this block's payload? -/
def builder_attempt_fails (f : PyVal → Except PyErr String) (b : PyVal) : Bool :=
  match f b with
  | .error _ => true
  | .ok _ => false

/-- Does the block take the fallback-paragraph path: an unknown `type`,
or a known-type builder that raises on this block's payload? -/
def builderFails (b : PyVal) : Bool :=
  match pyGet b "type" (.str "paragraph") with
  | .error _ => false
  | .ok t =>
      match builderFor t with
      | .error _ => false
      | .ok Option.none => true
      | .ok (some f) => builder_attempt_fails f b

theorem render_block_ok {b : PyVal} (h : dictWithHashableType b = true) :
    ∃ s, render_block b = .ok s := by
  cases b
  case dict kvs =>
    simp only [dictWithHashableType] at h
    simp only [render_block, pyGet, Bind.bind, Except.bind]
    cases ht : (lookupKV kvs "type").getD (.str "paragraph")
    case list xs =>
      rw [ht] at h
      exact Bool.noConfusion h
    case dict kvs' =>
      rw [ht] at h
      exact Bool.noConfusion h
    all_goals exact ⟨_, rfl⟩
  all_goals simp [dictWithHashableType] at h

theorem render_block_bad {b : PyVal} (hh : dictWithHashableType b = true)
    (hbad : builderFails b = true) : render_block b = .ok (fallbackPara b) := by
  cases b
  case dict kvs =>
    simp only [dictWithHashableType] at hh
    simp only [builderFails, pyGet] at hbad
    simp only [render_block, pyGet, Bind.bind, Except.bind]
    cases ht : (lookupKV kvs "type").getD (.str "paragraph")
    case list xs =>
      rw [ht] at hh
      exact Bool.noConfusion hh
    case dict kvs' =>
      rw [ht] at hh
      exact Bool.noConfusion hh
    case str t =>
      rw [ht] at hbad
      simp only [builderFor] at hbad
      simp only [builderFor]
      cases hb : BLOCK_BUILDERS t with
      | none => rfl
      | some f =>
          rw [hb] at hbad
          have hbad4 : builder_attempt_fails f (PyVal.dict kvs) = true := hbad
          show Except.ok (apply_builder f (PyVal.dict kvs)) =
            Except.ok (fallbackPara (PyVal.dict kvs))
          simp only [builder_attempt_fails] at hbad4
          simp only [apply_builder]
          cases hf : f (.dict kvs) with
          | ok s =>
              rw [hf] at hbad4
              exact absurd hbad4 (by simp)
          | error e => rfl
    all_goals rfl
  all_goals simp [dictWithHashableType] at hh

theorem render_blocks_ok {bs : List PyVal}
    (h : ∀ b ∈ bs, dictWithHashableType b = true) :
    render_blocks bs = .ok (bs.map rbVal) := by
  induction bs with
  | nil => rfl
  | cons b rest ih =>
      obtain ⟨s, hs⟩ := render_block_ok (h b (List.mem_cons_self b rest))
      have hr := ih (fun b' hb' => h b' (List.mem_cons_of_mem b hb'))
      simp only [render_blocks, Bind.bind, Except.bind, hs, hr, List.map]
      simp only [rbVal, okOr, hs]
      rfl

theorem joinSep_append_cons (sep y : String) (xs ys : List String) :
    joinSep sep (xs ++ y :: ys) =
      joinSep sep xs ++ (if xs.isEmpty then "" else sep) ++ y ++
        (if ys.isEmpty then "" else sep) ++ joinSep sep ys := by
  induction xs with
  | nil =>
      cases ys with
      | nil => simp [joinSep]
      | cons z zs => simp [joinSep, String.append_assoc]
  | cons x xs' ih =>
      cases xs' with
      | nil =>
          cases ys with
          | nil => simp [joinSep]
          | cons z zs => simp [joinSep, String.append_assoc]
      | cons w ws =>
          simp only [List.cons_append, List.append_eq, joinSep] at ih ⊢
          rw [ih]
          simp [String.append_assoc]

/-- C2 counterexample to the claim as stated: `build_html` *can* raise on
a list of dict-shaped blocks — `BLOCK_BUILDERS.get(block_type)` sits
outside the `try`, and a block whose `type` value is unhashable (here a
list) makes that dict lookup raise `TypeError`, aborting the whole
render. -/
theorem build_html_raises_counterexample :
    build_html (.list [.dict [("type", .list [])]]) =
      .error (.typeError "unhashable type: list") := rfl

/-- C2, amended: for every list of dict-shaped blocks whose `type` values
(defaulting to `"paragraph"`) are hashable, `build_html` never raises;
and every block whose type is unknown, or whose builder fails on its
payload, is rendered in place as the fallback paragraph — text taken, in
priority order, from the block's `text` field, else its `content` field,
else the string form of the whole block — while the blocks before and
after it render exactly as they would on their own: one bad block never
aborts or alters the rendering of the rest. -/
theorem build_html_total_and_fallback (blocks : List PyVal)
    (h : ∀ b ∈ blocks, dictWithHashableType b = true) :
    pyOk (build_html (.list blocks)) = true ∧
    fallbackPara = (fun b => "<p>" ++ escape (fallbackText b) ++ "</p>") ∧
    ∀ pre b post, blocks = pre ++ b :: post → builderFails b = true →
      build_html (.list blocks) = .ok (
        okOr (build_html (.list pre)) ++ (if pre.isEmpty then "" else "\n\n") ++
        fallbackPara b ++
        (if post.isEmpty then "" else "\n\n") ++ okOr (build_html (.list post))) := by
  have hmain : build_html (.list blocks) = .ok (joinSep "\n\n" (blocks.map rbVal)) := by
    simp only [build_html, pyIter, Bind.bind, Except.bind, render_blocks_ok h]
    rfl
  refine ⟨by simp [hmain, pyOk], rfl, ?_⟩
  intro pre b post hsplit hbad
  subst hsplit
  have hpre : ∀ b' ∈ pre, dictWithHashableType b' = true := by
    intro b' hb'
    exact h b' (List.mem_append_left _ hb')
  have hpost : ∀ b' ∈ post, dictWithHashableType b' = true := by
    intro b' hb'
    exact h b' (List.mem_append_right _ (List.mem_cons_of_mem b hb'))
  have hb : dictWithHashableType b = true :=
    h b (List.mem_append_right _ (List.mem_cons_self b post))
  have hpre' : build_html (.list pre) = .ok (joinSep "\n\n" (pre.map rbVal)) := by
    simp only [build_html, pyIter, Bind.bind, Except.bind, render_blocks_ok hpre]
    rfl
  have hpost' : build_html (.list post) = .ok (joinSep "\n\n" (post.map rbVal)) := by
    simp only [build_html, pyIter, Bind.bind, Except.bind, render_blocks_ok hpost]
    rfl
  have hfb : rbVal b = fallbackPara b := by
    simp [rbVal, okOr, render_block_bad hb hbad]
  rw [hmain, hpre', hpost']
  simp only [okOr, List.map_append, List.map_cons]
  rw [joinSep_append_cons, hfb]
  have hie : ∀ (l : List PyVal), (l.map rbVal).isEmpty = l.isEmpty := by
    intro l
    cases l <;> rfl
  rw [hie pre, hie post]

end EbookGen

namespace EbookGen

/-- C2 witness: a paragraph, an unknown-type block, and another paragraph
— the middle block renders as its fallback paragraph while both
neighbours render exactly as they do on their own. -/
theorem build_html_total_and_fallback_witness :
    build_html (.list [
        .dict [("type", .str "paragraph"), ("text", .str "ok")],
        .dict [("type", .str "bogus"), ("text", .str "hello")],
        .dict [("type", .str "paragraph"), ("text", .str "end")]]) =
      .ok (okOr (build_html (.list [.dict [("type", .str "paragraph"), ("text", .str "ok")]])) ++
        (if ([PyVal.dict [("type", .str "paragraph"), ("text", .str "ok")]] : List PyVal).isEmpty then "" else "\n\n") ++
        fallbackPara (.dict [("type", .str "bogus"), ("text", .str "hello")]) ++
        (if ([PyVal.dict [("type", .str "paragraph"), ("text", .str "end")]] : List PyVal).isEmpty then "" else "\n\n") ++
        okOr (build_html (.list [.dict [("type", .str "paragraph"), ("text", .str "end")]]))) :=
  (build_html_total_and_fallback
    [.dict [("type", .str "paragraph"), ("text", .str "ok")],
     .dict [("type", .str "bogus"), ("text", .str "hello")],
     .dict [("type", .str "paragraph"), ("text", .str "end")]]
    (by decide)).2.2
    [.dict [("type", .str "paragraph"), ("text", .str "ok")]]
    (.dict [("type", .str "bogus"), ("text", .str "hello")])
    [.dict [("type", .str "paragraph"), ("text", .str "end")]]
    rfl (by decide)

end EbookGen

namespace EbookGen

/-- Characters that may legitimately follow `<` in the HTML emitted for
text-embedding blocks: the tag templates open only `<p`, `<h2..4`,
`<blockquote`, `<footer` and the corresponding closers `</…`. -/
def safeAfterLt (c : Char) : Bool :=
  c = 'p' || c = 'h' || c = 'b' || c = 'f' || c = '/'

/-- Every `<` in the character list is immediately followed by a safe
template character (in particular, never by `s`, so no raw `<script>`
can occur). -/
def ltSafe : List Char → Bool
  | [] => true
  | c :: rest =>
      (if c = '<' then
        match rest with
        | [] => false
        | d :: _ => safeAfterLt d
      else true) && ltSafe rest

/-- Blocks whose rendering embeds the block's `text` field into the HTML
output: a dict whose `type` value (defaulting to `"paragraph"`) is the
string `"paragraph"`, `"heading"` or `"quote"`, an unknown string type
(rendered by the fallback paragraph), or any hashable non-string type
(also rendered by the fallback paragraph). -/
def textEmbedding : PyVal → Bool
  | .dict kvs =>
      match (lookupKV kvs "type").getD (.str "paragraph") with
      | .str t =>
          t == "paragraph" || t == "heading" || t == "quote" ||
            (BLOCK_BUILDERS t).isNone
      | .list _ => false
      | .dict _ => false
      | _ => true
  | _ => false

theorem strData_append (a b : String) : (a ++ b).data = a.data ++ b.data := by
  cases a
  cases b
  rfl

theorem ltSafe_append {a b : List Char} (ha : ltSafe a = true)
    (hb : ltSafe b = true) : ltSafe (a ++ b) = true := by
  induction a with
  | nil => simpa using hb
  | cons c rest ih =>
      simp only [ltSafe, Bool.and_eq_true] at ha
      cases rest with
      | nil =>
          simp only [List.cons_append, List.nil_append, ltSafe, Bool.and_eq_true]
          refine ⟨?_, hb⟩
          by_cases hc : c = '<'
          · rw [hc] at ha ⊢
            simp only [if_pos rfl] at ha
            exact absurd ha.1 (by simp)
          · simp [hc]
      | cons d rest' =>
          have htail := ih ha.2
          simp only [List.cons_append] at htail ⊢
          simp only [ltSafe, Bool.and_eq_true] at htail ⊢
          refine ⟨?_, htail⟩
          by_cases hc : c = '<'
          · rw [hc] at ha ⊢
            simpa using ha.1
          · simp [hc]

theorem ltSafe_of_noLt {l : List Char} (h : ∀ c ∈ l, c ≠ '<') :
    ltSafe l = true := by
  induction l with
  | nil => rfl
  | cons c rest ih =>
      simp only [ltSafe, Bool.and_eq_true]
      refine ⟨?_, ih (fun c' hc' => h c' (List.mem_cons_of_mem c hc'))⟩
      have hc := h c (List.mem_cons_self c rest)
      simp [hc]

end EbookGen

namespace EbookGen

theorem escapeChar_no_lt (a : Char) : ∀ c ∈ (escapeChar a).data, c ≠ '<' := by
  unfold escapeChar
  by_cases h1 : a = '&'
  · rw [if_pos h1]; decide
  rw [if_neg h1]
  by_cases h2 : a = '<'
  · rw [if_pos h2]; decide
  rw [if_neg h2]
  by_cases h3 : a = '>'
  · rw [if_pos h3]; decide
  rw [if_neg h3]
  by_cases h4 : a = '"'
  · rw [if_pos h4]; decide
  rw [if_neg h4]
  by_cases h5 : a = squote
  · rw [if_pos h5]; decide
  rw [if_neg h5]
  intro c hc
  have hca : c = a := by simpa using hc
  rw [hca]
  exact h2

theorem htmlEscape_no_lt (s : String) : ∀ c ∈ (htmlEscape s).data, c ≠ '<' := by
  intro c hc
  have hc' : c ∈ s.data.flatMap (fun a => (escapeChar a).data) := hc
  rcases List.mem_flatMap.mp hc' with ⟨a, _, hmem⟩
  exact escapeChar_no_lt a c hmem

theorem escape_no_lt (v : PyVal) : ∀ c ∈ (escape v).data, c ≠ '<' := by
  intro c hc
  unfold escape at hc
  by_cases ht : pyTruthy v = true
  · rw [if_pos ht] at hc
    exact htmlEscape_no_lt _ c hc
  · rw [if_neg ht] at hc
    exact absurd hc (by simp [String.data])

theorem ltSafe_escape (v : PyVal) : ltSafe (escape v).data = true :=
  ltSafe_of_noLt (escape_no_lt v)

theorem digit_ne_lt {d : Nat} (hd : d < 10) : Char.ofNat (48 + d) ≠ '<' := by
  interval_cases d <;> decide

theorem mem_natDigitsAux {c : Char} :
    ∀ (fuel n : Nat) (acc : List Char), c ∈ natDigitsAux fuel n acc →
      c ∈ acc ∨ ∃ d, d < 10 ∧ c = Char.ofNat (48 + d) := by
  intro fuel
  induction fuel with
  | zero =>
      intro n acc h
      simp only [natDigitsAux] at h
      exact Or.inl h
  | succ fuel ih =>
      intro n acc h
      cases n with
      | zero =>
          simp only [natDigitsAux] at h
          exact Or.inl h
      | succ n' =>
          simp only [natDigitsAux] at h
          rcases ih _ _ h with hacc | hd
          · rcases List.mem_cons.mp hacc with he | hacc'
            · exact Or.inr ⟨(n' + 1) % 10, Nat.mod_lt _ (by decide), he⟩
            · exact Or.inl hacc'
          · exact Or.inr hd

theorem pyNatStr_no_lt (n : Nat) : ∀ c ∈ pyNatStr n, c ≠ '<' := by
  intro c hc
  unfold pyNatStr at hc
  by_cases hn : n = 0
  · rw [if_pos hn] at hc
    have hc0 : c = '0' := by simpa using hc
    rw [hc0]
    decide
  · rw [if_neg hn] at hc
    rcases mem_natDigitsAux n n [] hc with h | ⟨d, hd, he⟩
    · exact absurd h (List.not_mem_nil c)
    · rw [he]
      exact digit_ne_lt hd

theorem pyFloatStr_no_lt (m e : Int) : ∀ c ∈ (pyFloatStr m e).data, c ≠ '<' := by
  have hsign : ∀ x ∈ (if m < 0 then ['-'] else ([] : List Char)), x ≠ '<' := by
    intro x hx
    by_cases hm : m < 0
    · rw [if_pos hm] at hx
      have hx' : x = '-' := by simpa using hx
      rw [hx']
      decide
    · rw [if_neg hm] at hx
      exact absurd hx (List.not_mem_nil x)
  cases e with
  | ofNat k =>
      intro c hc
      have hc1 : c ∈ (if m < 0 then ['-'] else ([] : List Char)) ++ pyNatStr m.natAbs ++
          List.replicate k '0' ++ ['.', '0'] := hc
      simp only [List.mem_append, List.mem_cons, List.not_mem_nil, or_false] at hc1
      rcases hc1 with ((hs | hdg) | hz) | hdot
      · exact hsign c hs
      · exact pyNatStr_no_lt _ c hdg
      · rw [List.eq_of_mem_replicate hz]
        decide
      · rcases hdot with h1 | h2
        · rw [h1]; decide
        · rw [h2]; decide
  | negSucc k' =>
      intro c hc
      have hc0 : c ∈ (if (pyNatStr m.natAbs).length ≤ k' + 1 then
          String.mk ((if m < 0 then ['-'] else ([] : List Char)) ++ ['0', '.'] ++
            List.replicate (k' + 1 - (pyNatStr m.natAbs).length) '0' ++ pyNatStr m.natAbs)
        else
          String.mk ((if m < 0 then ['-'] else ([] : List Char)) ++
            (pyNatStr m.natAbs).take ((pyNatStr m.natAbs).length - (k' + 1)) ++ ['.'] ++
            (pyNatStr m.natAbs).drop ((pyNatStr m.natAbs).length - (k' + 1)))).data := hc
      by_cases hlen : (pyNatStr m.natAbs).length ≤ k' + 1
      · rw [if_pos hlen] at hc0
        have hc1 : c ∈ (if m < 0 then ['-'] else ([] : List Char)) ++ ['0', '.'] ++
            List.replicate (k' + 1 - (pyNatStr m.natAbs).length) '0' ++
            pyNatStr m.natAbs := hc0
        simp only [List.mem_append, List.mem_cons, List.not_mem_nil, or_false] at hc1
        rcases hc1 with ((hs | hzd) | hz) | hdg
        · exact hsign c hs
        · rcases hzd with h1 | h2
          · rw [h1]; decide
          · rw [h2]; decide
        · rw [List.eq_of_mem_replicate hz]
          decide
        · exact pyNatStr_no_lt _ c hdg
      · rw [if_neg hlen] at hc0
        have hc1 : c ∈ (if m < 0 then ['-'] else ([] : List Char)) ++
            (pyNatStr m.natAbs).take ((pyNatStr m.natAbs).length - (k' + 1)) ++ ['.'] ++
            (pyNatStr m.natAbs).drop ((pyNatStr m.natAbs).length - (k' + 1)) := hc0
        simp only [List.mem_append, List.mem_cons, List.not_mem_nil, or_false] at hc1
        rcases hc1 with ((hs | htk) | hdot) | hdr
        · exact hsign c hs
        · exact pyNatStr_no_lt _ c (List.take_subset _ _ htk)
        · rw [hdot]; decide
        · exact pyNatStr_no_lt _ c (List.drop_subset _ _ hdr)

theorem pyStr_num_no_lt {v : PyVal} (h : isNumV v = true) :
    ∀ c ∈ (pyStr v).data, c ≠ '<' := by
  cases v with
  | int n =>
      intro c hc
      cases n with
      | ofNat k =>
          have hck : c ∈ pyNatStr k := hc
          exact pyNatStr_no_lt k c hck
      | negSucc k =>
          have hc' : c ∈ '-' :: pyNatStr (k + 1) := hc
          rcases List.mem_cons.mp hc' with h1 | h2
          · rw [h1]; decide
          · exact pyNatStr_no_lt _ c h2
  | bool b => cases b <;> decide
  | float m e =>
      intro c hc
      exact pyFloatStr_no_lt m e c hc
  | nan => decide
  | inf neg => cases neg <;> decide
  | none => simp [isNumV] at h
  | str s => simp [isNumV] at h
  | list xs => simp [isNumV] at h
  | dict kvs => simp [isNumV] at h

end EbookGen

namespace EbookGen

theorem clampLevel_ok_num {v w : PyVal} (h : clampLevel v = .ok w) :
    isNumV w = true := by
  cases hn : isNumV v with
  | false =>
      have hlt : pyLtB v (.int 4) =
          .error (.typeError "not supported between instances") := by
        simp [pyLtB, hn]
      simp only [clampLevel, hlt, Bind.bind, Except.bind] at h
      exact absurd h (by simp)
  | true =>
      have hlt : pyLtB v (.int 4) = .ok (ltNumV v (.int 4)) := by
        have h4 : isNumV (.int 4) = true := rfl
        simp [pyLtB, hn, h4]
      have hm : isNumV (if ltNumV v (.int 4) = true then v else .int 4) = true := by
        by_cases hb : ltNumV v (.int 4) = true
        · rw [if_pos hb]
          exact hn
        · rw [if_neg hb]
          rfl
      have hlt2 : pyLtB (.int 2) (if ltNumV v (.int 4) = true then v else .int 4) =
          .ok (ltNumV (.int 2) (if ltNumV v (.int 4) = true then v else .int 4)) := by
        have h2 : isNumV (.int 2) = true := rfl
        simp [pyLtB, h2, hm]
      simp only [clampLevel, hlt, Bind.bind, Except.bind, hlt2] at h
      have hw : (if ltNumV (.int 2) (if ltNumV v (.int 4) = true then v else .int 4) = true
          then (if ltNumV v (.int 4) = true then v else .int 4) else .int 2) = w := by
        simpa [pure, Except.pure] using h
      rw [← hw]
      by_cases hb2 : ltNumV (.int 2) (if ltNumV v (.int 4) = true then v else .int 4) = true
      · simp only [hb2, if_true]
        exact hm
      · simp [hb2, isNumV]

theorem ltSafe_no_bad_infix {d : Char} {pat l : List Char}
    (hd : safeAfterLt d = false) (h : ltSafe l = true) :
    isInfixB ('<' :: d :: pat) l = false := by
  induction l with
  | nil => rfl
  | cons c rest ih =>
      simp only [ltSafe, Bool.and_eq_true] at h
      have htail := ih h.2
      simp only [isInfixB, htail, Bool.or_false]
      by_cases hc : c = '<'
      · subst hc
        cases rest with
        | nil => simp [List.isPrefixOf]
        | cons e rest' =>
            have he : safeAfterLt e = true := by simpa using h.1
            have hde : (d == e) = false := by
              cases hde' : (d == e)
              · rfl
              · rw [eq_of_beq hde'] at hd
                rw [hd] at he
                exact Bool.noConfusion he
            simp [List.isPrefixOf, hde]
      · have hcc : (('<' : Char) == c) = false := by
          cases hcc' : (('<' : Char) == c)
          · rfl
          · exact absurd (eq_of_beq hcc').symm hc
        simp [List.isPrefixOf, hcc]

theorem ltSafe_no_script {l : List Char} (h : ltSafe l = true) :
    isInfixB "<script>".data l = false := by
  have hpat : "<script>".data = '<' :: 's' :: ['c', 'r', 'i', 'p', 't', '>'] := rfl
  rw [hpat]
  exact ltSafe_no_bad_infix (by decide) h

theorem infix_middle {α : Type} {m x : List α} (a b : List α) (h : m <:+: x) :
    m <:+: a ++ x ++ b := by
  rcases h with ⟨s, t, hst⟩
  exact ⟨a ++ s, t ++ b, by rw [← hst]; simp [List.append_assoc]⟩

theorem htmlEscape_contains_escaped {t : String} (hs : hasSub t "<script>" = true) :
    "&lt;script&gt;".data <:+: (htmlEscape t).data := by
  have hinf : "<script>".data <:+: t.data := (isInfixB_iff _ _).mp hs
  rcases hinf with ⟨u, v, huv⟩
  show "&lt;script&gt;".data <:+: t.data.flatMap (fun a => (escapeChar a).data)
  rw [← huv]
  simp only [List.flatMap_append]
  have hmid : ("<script>".data).flatMap (fun a => (escapeChar a).data) =
      "&lt;script&gt;".data := by decide
  rw [hmid]
  exact infix_middle _ _ (List.infix_refl _)

theorem fallbackPara_ltSafe (b : PyVal) : ltSafe (fallbackPara b).data = true := by
  unfold fallbackPara
  rw [strData_append, strData_append]
  exact ltSafe_append (ltSafe_append (by decide) (ltSafe_escape _)) (by decide)

theorem hasSub_ne_empty {t : String} (hs : hasSub t "<script>" = true) : t ≠ "" := by
  intro he
  have hf : hasSub "" "<script>" = false := by decide
  rw [he, hf] at hs
  exact Bool.noConfusion hs

theorem escape_str_of_hasSub {t : String} (hs : hasSub t "<script>" = true) :
    escape (.str t) = htmlEscape t := by
  have hne := hasSub_ne_empty hs
  simp [escape, pyTruthy, pyStr, hne]

theorem fallbackPara_contains {kvs : List (String × PyVal)} {t : String}
    (hl : lookupKV kvs "text" = some (.str t)) (hs : hasSub t "<script>" = true) :
    isInfixB "&lt;script&gt;".data (fallbackPara (.dict kvs)).data = true := by
  have hft : fallbackText (.dict kvs) = .str t := by
    simp only [fallbackText, hl, Option.getD_some]
  unfold fallbackPara
  rw [hft, isInfixB_iff, strData_append, strData_append, escape_str_of_hasSub hs]
  exact infix_middle _ _ (htmlEscape_contains_escaped hs)

end EbookGen

namespace EbookGen

theorem rbVal_dict {kvs : List (String × PyVal)} {t : String}
    (htv : (lookupKV kvs "type").getD (.str "paragraph") = .str t) :
    rbVal (.dict kvs) =
      (match BLOCK_BUILDERS t with
        | some f => apply_builder f (.dict kvs)
        | Option.none => fallbackPara (.dict kvs)) := by
  simp only [rbVal, render_block, pyGet, htv, builderFor, Bind.bind, Except.bind]
  cases BLOCK_BUILDERS t <;> rfl

theorem rbVal_dict_fb {kvs : List (String × PyVal)}
    (hbf : builderFor ((lookupKV kvs "type").getD (.str "paragraph")) =
      .ok Option.none) :
    rbVal (.dict kvs) = fallbackPara (.dict kvs) := by
  simp only [rbVal, render_block, pyGet, Bind.bind, Except.bind, hbf]
  rfl

theorem apply_build_paragraph_ltSafe (kvs : List (String × PyVal)) :
    ltSafe (apply_builder build_paragraph (.dict kvs)).data = true := by
  unfold apply_builder
  cases hl : lookupKV kvs "text" with
  | none =>
      have hbp : build_paragraph (.dict kvs) = .error (.keyError "text") := by
        simp only [build_paragraph, pySubscr, hl, Bind.bind, Except.bind]
      rw [hbp]
      exact fallbackPara_ltSafe _
  | some v =>
      have hbp : build_paragraph (.dict kvs) = .ok ("<p>" ++ escape v ++ "</p>") := by
        simp only [build_paragraph, pySubscr, hl, Bind.bind, Except.bind]
        rfl
      rw [hbp]
      show ltSafe ("<p>" ++ escape v ++ "</p>").data = true
      rw [strData_append, strData_append]
      exact ltSafe_append (ltSafe_append (by decide) (ltSafe_escape _)) (by decide)

theorem apply_build_paragraph_contains {kvs : List (String × PyVal)} {t : String}
    (hl : lookupKV kvs "text" = some (.str t)) (hs : hasSub t "<script>" = true) :
    isInfixB "&lt;script&gt;".data
      (apply_builder build_paragraph (.dict kvs)).data = true := by
  have hbp : build_paragraph (.dict kvs) = .ok ("<p>" ++ escape (.str t) ++ "</p>") := by
    simp only [build_paragraph, pySubscr, hl, Bind.bind, Except.bind]
    rfl
  unfold apply_builder
  rw [hbp]
  show isInfixB "&lt;script&gt;".data ("<p>" ++ escape (.str t) ++ "</p>").data = true
  rw [isInfixB_iff, strData_append, strData_append, escape_str_of_hasSub hs]
  exact infix_middle _ _ (htmlEscape_contains_escaped hs)

theorem apply_build_heading_ltSafe (kvs : List (String × PyVal)) :
    ltSafe (apply_builder build_heading (.dict kvs)).data = true := by
  unfold apply_builder
  cases hcl : clampLevel ((lookupKV kvs "level").getD (.int 2)) with
  | error e =>
      have hbh : build_heading (.dict kvs) = .error e := by
        simp only [build_heading, pyGet, Bind.bind, Except.bind, hcl]
      rw [hbh]
      exact fallbackPara_ltSafe _
  | ok w =>
      cases hl : lookupKV kvs "text" with
      | none =>
          have hbh : build_heading (.dict kvs) = .error (.keyError "text") := by
            simp only [build_heading, pyGet, Bind.bind, Except.bind, hcl, pySubscr, hl]
          rw [hbh]
          exact fallbackPara_ltSafe _
      | some v =>
          have hbh : build_heading (.dict kvs) =
              .ok ("<h" ++ pyStr w ++ ">" ++ escape v ++ "</h" ++ pyStr w ++ ">") := by
            simp only [build_heading, pyGet, Bind.bind, Except.bind, hcl, pySubscr, hl]
            rfl
          rw [hbh]
          show ltSafe ("<h" ++ pyStr w ++ ">" ++ escape v ++ "</h" ++ pyStr w ++ ">").data = true
          have hw : ltSafe (pyStr w).data = true :=
            ltSafe_of_noLt (pyStr_num_no_lt (clampLevel_ok_num hcl))
          simp only [strData_append]
          exact ltSafe_append (ltSafe_append (ltSafe_append (ltSafe_append (ltSafe_append
            (ltSafe_append (by decide) hw) (by decide)) (ltSafe_escape v)) (by decide)) hw)
            (by decide)

theorem apply_build_heading_contains {kvs : List (String × PyVal)} {t : String}
    (hl : lookupKV kvs "text" = some (.str t)) (hs : hasSub t "<script>" = true) :
    isInfixB "&lt;script&gt;".data
      (apply_builder build_heading (.dict kvs)).data = true := by
  unfold apply_builder
  cases hcl : clampLevel ((lookupKV kvs "level").getD (.int 2)) with
  | error e =>
      have hbh : build_heading (.dict kvs) = .error e := by
        simp only [build_heading, pyGet, Bind.bind, Except.bind, hcl]
      rw [hbh]
      exact fallbackPara_contains hl hs
  | ok w =>
      have hbh : build_heading (.dict kvs) =
          .ok ("<h" ++ pyStr w ++ ">" ++ escape (.str t) ++ "</h" ++ pyStr w ++ ">") := by
        simp only [build_heading, pyGet, Bind.bind, Except.bind, hcl, pySubscr, hl]
        rfl
      rw [hbh]
      show isInfixB "&lt;script&gt;".data
        ("<h" ++ pyStr w ++ ">" ++ escape (.str t) ++ "</h" ++ pyStr w ++ ">").data = true
      rw [isInfixB_iff]
      simp only [strData_append]
      rw [escape_str_of_hasSub hs]
      have h1 : "&lt;script&gt;".data <:+:
          ("<h".data ++ (pyStr w).data ++ ">".data) ++ (htmlEscape t).data ++
            ("</h".data ++ (pyStr w).data ++ ">".data) :=
        infix_middle _ _ (htmlEscape_contains_escaped hs)
      simpa [List.append_assoc] using h1

end EbookGen

namespace EbookGen

theorem build_quote_dict (kvs : List (String × PyVal)) :
    build_quote (.dict kvs) = .ok (
      "<blockquote data-block=\"quote\" data-author=\"" ++
        escape ((lookupKV kvs "author").getD (.str "")) ++
      "\" class=\"my-8 pl-6 border-l-4 border-orange-500 bg-neutral-800/50 py-4 pr-4 rounded-r-lg\">\n    <p class=\"text-lg italic text-gray-200 m-0\">\"" ++
      escape ((lookupKV kvs "text").getD (.str "")) ++ "\"</p>" ++
      (if escape ((lookupKV kvs "author").getD (.str "")) ≠ "" then
        "\n    <footer class=\"mt-3 text-sm text-gray-400\">â€” " ++
          escape ((lookupKV kvs "author").getD (.str "")) ++ "</footer>"
      else "") ++ "\n  </blockquote>") := by
  simp only [build_quote, pyGet, Bind.bind, Except.bind]
  rfl

theorem apply_build_quote_ltSafe (kvs : List (String × PyVal)) :
    ltSafe (apply_builder build_quote (.dict kvs)).data = true := by
  unfold apply_builder
  rw [build_quote_dict]
  have hauth := ltSafe_escape ((lookupKV kvs "author").getD (.str ""))
  have htext := ltSafe_escape ((lookupKV kvs "text").getD (.str ""))
  have hif : ltSafe (if escape ((lookupKV kvs "author").getD (.str "")) ≠ "" then
      "\n    <footer class=\"mt-3 text-sm text-gray-400\">â€” " ++
        escape ((lookupKV kvs "author").getD (.str "")) ++ "</footer>"
    else "").data = true := by
    by_cases ha : escape ((lookupKV kvs "author").getD (.str "")) ≠ ""
    · rw [if_pos ha]
      simp only [strData_append]
      exact ltSafe_append (ltSafe_append (by decide) hauth) (by decide)
    · rw [if_neg ha]
      decide
  simp only [strData_append]
  exact ltSafe_append (ltSafe_append (ltSafe_append (ltSafe_append (ltSafe_append
    (ltSafe_append (by decide) hauth) (by decide)) htext) (by decide)) hif) (by decide)

set_option maxRecDepth 8000 in
theorem apply_build_quote_contains {kvs : List (String × PyVal)} {t : String}
    (hl : lookupKV kvs "text" = some (.str t)) (hs : hasSub t "<script>" = true) :
    isInfixB "&lt;script&gt;".data
      (apply_builder build_quote (.dict kvs)).data = true := by
  unfold apply_builder
  rw [build_quote_dict]
  rw [isInfixB_iff]
  simp only [strData_append]
  rw [hl]
  simp only [Option.getD_some]
  rw [escape_str_of_hasSub hs]
  have h1 : "&lt;script&gt;".data <:+:
      (("<blockquote data-block=\"quote\" data-author=\"".data ++
          (escape ((lookupKV kvs "author").getD (.str ""))).data ++
        "\" class=\"my-8 pl-6 border-l-4 border-orange-500 bg-neutral-800/50 py-4 pr-4 rounded-r-lg\">\n    <p class=\"text-lg italic text-gray-200 m-0\">\"".data) ++
        (htmlEscape t).data ++
        ("\"</p>".data ++
          (if escape ((lookupKV kvs "author").getD (.str "")) ≠ "" then
            "\n    <footer class=\"mt-3 text-sm text-gray-400\">â€” " ++
              escape ((lookupKV kvs "author").getD (.str "")) ++ "</footer>"
          else "").data ++ "\n  </blockquote>".data)) :=
    infix_middle _ _ (htmlEscape_contains_escaped hs)
  simpa [List.append_assoc] using h1

end EbookGen

namespace EbookGen

theorem textEmbedding_hashable {b : PyVal} (h : textEmbedding b = true) :
    dictWithHashableType b = true := by
  cases b
  case dict kvs =>
    simp only [textEmbedding] at h
    simp only [dictWithHashableType]
    cases htv : (lookupKV kvs "type").getD (.str "paragraph") <;> rw [htv] at h <;>
      first
      | rfl
      | exact Bool.noConfusion h
  all_goals simp [textEmbedding] at h

theorem rbVal_ltSafe {b : PyVal} (h : textEmbedding b = true) :
    ltSafe (rbVal b).data = true := by
  cases b
  case dict kvs =>
    simp only [textEmbedding] at h
    cases htv : (lookupKV kvs "type").getD (.str "paragraph")
    case str s =>
      rw [htv] at h
      simp only [Bool.or_eq_true, beq_iff_eq, Option.isNone_iff_eq_none] at h
      rcases h with ((h | h) | h) | h
      · subst h
        rw [rbVal_dict htv]
        have hbb : BLOCK_BUILDERS "paragraph" = some build_paragraph := rfl
        rw [hbb]
        exact apply_build_paragraph_ltSafe kvs
      · subst h
        rw [rbVal_dict htv]
        have hbb : BLOCK_BUILDERS "heading" = some build_heading := rfl
        rw [hbb]
        exact apply_build_heading_ltSafe kvs
      · subst h
        rw [rbVal_dict htv]
        have hbb : BLOCK_BUILDERS "quote" = some build_quote := rfl
        rw [hbb]
        exact apply_build_quote_ltSafe kvs
      · rw [rbVal_dict htv, h]
        exact fallbackPara_ltSafe _
    case list xs =>
      rw [htv] at h
      exact Bool.noConfusion h
    case dict kvs' =>
      rw [htv] at h
      exact Bool.noConfusion h
    all_goals
      rw [rbVal_dict_fb (by rw [htv]; rfl)]
      exact fallbackPara_ltSafe _
  all_goals simp [textEmbedding] at h

theorem rbVal_contains {b : PyVal} {t : String} (h : textEmbedding b = true)
    (ht : dictGet? b "text" = some (.str t)) (hs : hasSub t "<script>" = true) :
    isInfixB "&lt;script&gt;".data (rbVal b).data = true := by
  cases b
  case dict kvs =>
    have hl : lookupKV kvs "text" = some (.str t) := ht
    simp only [textEmbedding] at h
    cases htv : (lookupKV kvs "type").getD (.str "paragraph")
    case str s =>
      rw [htv] at h
      simp only [Bool.or_eq_true, beq_iff_eq, Option.isNone_iff_eq_none] at h
      rcases h with ((h | h) | h) | h
      · subst h
        rw [rbVal_dict htv]
        have hbb : BLOCK_BUILDERS "paragraph" = some build_paragraph := rfl
        rw [hbb]
        exact apply_build_paragraph_contains hl hs
      · subst h
        rw [rbVal_dict htv]
        have hbb : BLOCK_BUILDERS "heading" = some build_heading := rfl
        rw [hbb]
        exact apply_build_heading_contains hl hs
      · subst h
        rw [rbVal_dict htv]
        have hbb : BLOCK_BUILDERS "quote" = some build_quote := rfl
        rw [hbb]
        exact apply_build_quote_contains hl hs
      · rw [rbVal_dict htv, h]
        exact fallbackPara_contains hl hs
    case list xs =>
      rw [htv] at h
      exact Bool.noConfusion h
    case dict kvs' =>
      rw [htv] at h
      exact Bool.noConfusion h
    all_goals
      rw [rbVal_dict_fb (by rw [htv]; rfl)]
      exact fallbackPara_contains hl hs
  all_goals simp [textEmbedding] at h

theorem ltSafe_joinSep {parts : List String}
    (h : ∀ x ∈ parts, ltSafe x.data = true) :
    ltSafe (joinSep "\n\n" parts).data = true := by
  induction parts with
  | nil => decide
  | cons x rest ih =>
      cases rest with
      | nil =>
          simp only [joinSep]
          exact h x (List.mem_cons_self x [])
      | cons y ys =>
          simp only [joinSep]
          rw [strData_append, strData_append]
          refine ltSafe_append (ltSafe_append (h x (List.mem_cons_self _ _)) (by decide)) ?_
          exact ih (fun z hz => h z (List.mem_cons_of_mem x hz))

theorem infix_joinSep {x : String} {parts : List String} {m : List Char}
    (hx : x ∈ parts) (hm : m <:+: x.data) :
    m <:+: (joinSep "\n\n" parts).data := by
  induction parts with
  | nil => exact absurd hx (List.not_mem_nil x)
  | cons y rest ih =>
      cases rest with
      | nil =>
          rcases List.mem_cons.mp hx with rfl | h0
          · simpa [joinSep] using hm
          · exact absurd h0 (List.not_mem_nil x)
      | cons z zs =>
          rcases List.mem_cons.mp hx with rfl | h0
          · simp only [joinSep]
            rw [strData_append, strData_append]
            rcases hm with ⟨s, t2, hst⟩
            exact ⟨s, t2 ++ "\n\n".data ++ (joinSep "\n\n" (z :: zs)).data,
              by rw [← hst]; simp [List.append_assoc]⟩
          · have hrec := ih h0
            simp only [joinSep]
            rw [strData_append, strData_append]
            rcases hrec with ⟨s, t2, hst⟩
            exact ⟨y.data ++ "\n\n".data ++ s, t2,
              by rw [← hst]; simp [List.append_assoc]⟩

end EbookGen

namespace EbookGen

/-- C1, amended: for every sequence of text-embedding blocks — dict-shaped
blocks whose `type` (defaulting to `"paragraph"`) is `"paragraph"`,
`"heading"`, `"quote"`, an unknown string type, or any hashable non-string
type, i.e. exactly the blocks whose rendering embeds the block's `text`
field — `build_html` succeeds, and if any block's `text` field contains
the substring `<script>`, the rendered output contains `&lt;script&gt;`
and never an unescaped `<script>` tag.  (The restriction to
text-embedding blocks is necessary: other block types embed other fields,
some of them unescaped — see the counterexample.) -/
theorem build_html_escapes_script (blocks : List PyVal)
    (hall : ∀ b ∈ blocks, textEmbedding b = true)
    (hsome : ∃ b ∈ blocks, ∃ t, dictGet? b "text" = some (.str t) ∧
      hasSub t "<script>" = true) :
    ∃ out, build_html (.list blocks) = .ok out ∧
      hasSub out "&lt;script&gt;" = true ∧ hasSub out "<script>" = false := by
  have hhash : ∀ b ∈ blocks, dictWithHashableType b = true :=
    fun b hb => textEmbedding_hashable (hall b hb)
  have hmain : build_html (.list blocks) = .ok (joinSep "\n\n" (blocks.map rbVal)) := by
    simp only [build_html, pyIter, Bind.bind, Except.bind, render_blocks_ok hhash]
    rfl
  refine ⟨_, hmain, ?_, ?_⟩
  · rcases hsome with ⟨b, hb, t, ht, hs⟩
    have hc := rbVal_contains (hall b hb) ht hs
    have hmem : rbVal b ∈ blocks.map rbVal := List.mem_map_of_mem _ hb
    show isInfixB "&lt;script&gt;".data (joinSep "\n\n" (blocks.map rbVal)).data = true
    rw [isInfixB_iff]
    exact infix_joinSep hmem ((isInfixB_iff _ _).mp hc)
  · have hsafe : ltSafe (joinSep "\n\n" (blocks.map rbVal)).data = true := by
      refine ltSafe_joinSep ?_
      intro x hx
      rcases List.mem_map.mp hx with ⟨b, hb, rfl⟩
      exact rbVal_ltSafe (hall b hb)
    show isInfixB "<script>".data (joinSep "\n\n" (blocks.map rbVal)).data = false
    exact ltSafe_no_script hsafe

end EbookGen

namespace EbookGen

/-- C1 witness: a quote block whose `text` contains `<script>` renders to
HTML containing `&lt;script&gt;` and no raw `<script>`. -/
theorem build_html_escapes_script_witness :
    ∃ out, build_html (.list [.dict [("type", .str "quote"),
        ("text", .str "hi <script>alert(1)</script>")]]) = .ok out ∧
      hasSub out "&lt;script&gt;" = true ∧ hasSub out "<script>" = false :=
  build_html_escapes_script
    [.dict [("type", .str "quote"), ("text", .str "hi <script>alert(1)</script>")]]
    (by decide)
    ⟨.dict [("type", .str "quote"), ("text", .str "hi <script>alert(1)</script>")],
      List.mem_cons_self _ _, "hi <script>alert(1)</script>", rfl, by decide⟩

end EbookGen

namespace EbookGen

set_option maxRecDepth 8000 in
/-- C1 counterexample to the claim as stated: a `callout` block whose
`text` field contains `<script>` — `build_callout` never embeds the
`text` field, and it embeds the `style` value into the
`data-callout-type` attribute without HTML escaping, so with
`style = "<script>"` the rendered output contains a raw `<script>` and no
`&lt;script&gt;` anywhere. -/
theorem build_html_unescaped_script_counterexample :
    (∃ t, dictGet? (.dict [("type", .str "callout"), ("text", .str "<script>"),
        ("style", .str "<script>")]) "text" = some (.str t) ∧
      hasSub t "<script>" = true) ∧
    ∃ out, build_html (.list [.dict [("type", .str "callout"), ("text", .str "<script>"),
        ("style", .str "<script>")]]) = .ok out ∧
      hasSub out "<script>" = true ∧ hasSub out "&lt;script&gt;" = false :=
  ⟨⟨"<script>", rfl, by decide⟩, _, rfl, by decide, by decide⟩

end EbookGen
